import Mathlib

/-!
Verification of the core of an Anghami→Spotify playlist migrator against its
natural-language specification.

The development shallowly embeds the relevant Python source:
* text normalisation and Arabic-script detection (`TextNormalizer`,
  `ArabicTransliterator` in `spotify_track_matcher.py`),
* the search cache and the track-matching pipeline (`SpotifySearchCache`,
  `SpotifyTrackMatcher`),
* the playlist creator (`SpotifyPlaylistCreator` in
  `spotify_playlist_creator.py`),
* the migration session service (`migration_service.py`).

Python floats are modelled as exact rationals; where a float rounding step is
observable (the `len(text) * 0.3` threshold in `is_arabic_text`) the IEEE-754
double computation is modelled exactly.  Network and clock effects are passed
in explicitly (API responses as oracle functions, `datetime.now()` as a
parameter).
-/

namespace AnghamiSpotify

/-- Whitespace characters of Python's `str.strip` / regex `\s`
(ASCII repertoire; the strings handled by the migrator contain no
non-ASCII spaces). -/
def isPySpace (c : Char) : Bool :=
  c = ' ' || c = '\t' || c = '\n' || c = '\r' || c = '\x0b' || c = '\x0c'

/-- Strip `\s` characters from both ends of a character list. -/
def pyStripList (l : List Char) : List Char :=
  ((l.dropWhile isPySpace).reverse.dropWhile isPySpace).reverse

/-- Python `str.strip()`. -/
def pyStrip (s : String) : String := ⟨pyStripList s.data⟩

/-- Python `str.lower()` (ASCII repertoire: Arabic letters are uncased). -/
def pyLower (s : String) : String := ⟨s.data.map Char.toLower⟩

/-- Unicode combining marks (category Mn) on the repertoire relevant to the
migrator: Latin combining diacritics and the Hebrew/Arabic mark ranges. -/
def isCombiningMark (c : Char) : Bool :=
  (0x300 ≤ c.toNat && c.toNat ≤ 0x36F) ||
  (0x483 ≤ c.toNat && c.toNat ≤ 0x489) ||
  (0x591 ≤ c.toNat && c.toNat ≤ 0x5BD) || c.toNat = 0x5BF ||
  c.toNat = 0x5C1 || c.toNat = 0x5C2 || c.toNat = 0x5C4 || c.toNat = 0x5C5 ||
  c.toNat = 0x5C7 ||
  (0x610 ≤ c.toNat && c.toNat ≤ 0x61A) ||
  (0x64B ≤ c.toNat && c.toNat ≤ 0x65F) || c.toNat = 0x670 ||
  (0x6D6 ≤ c.toNat && c.toNat ≤ 0x6DC) ||
  (0x6DF ≤ c.toNat && c.toNat ≤ 0x6E4) ||
  c.toNat = 0x6E7 || c.toNat = 0x6E8 ||
  (0x6EA ≤ c.toNat && c.toNat ≤ 0x6ED) ||
  (0x1AB0 ≤ c.toNat && c.toNat ≤ 0x1AFF) ||
  (0x20D0 ≤ c.toNat && c.toNat ≤ 0x20F0) ||
  (0xFE20 ≤ c.toNat && c.toNat ≤ 0xFE2F)

/-- `TextNormalizer.normalize_unicode`: empty text maps to `""`; otherwise the
text is canonically decomposed (NFD — modelled as the identity, the strings of
this development being already decomposed), combining marks (category Mn) are
removed, and the result is stripped. -/
def normalize_unicode (text : String) : String :=
  if text = "" then ""
  else pyStrip ⟨text.data.filter (fun c => !isCombiningMark c)⟩

/-- Python regex `\w` on the migrator's character repertoire: ASCII
alphanumerics and underscore, Latin-1 letters, Arabic letters and
Arabic-Indic digits. -/
def isWordChar (c : Char) : Bool :=
  c.isAlphanum || c = '_' ||
  (0xC0 ≤ c.toNat && c.toNat ≤ 0xFF && c.toNat ≠ 0xD7 && c.toNat ≠ 0xF7) ||
  (0x620 ≤ c.toNat && c.toNat ≤ 0x64A) ||
  (0x660 ≤ c.toNat && c.toNat ≤ 0x669) ||
  (0x66E ≤ c.toNat && c.toNat ≤ 0x6D3) || c.toNat = 0x6D5

/-- Replace every maximal run of `\s` characters by a single `' '`
(regex `\s+` → `' '`); the flag records whether the previous character
was whitespace. -/
def collapseSpacesAux : List Char → Bool → List Char
  | [], _ => []
  | c :: rest, prevSpace =>
    if isPySpace c then
      (if prevSpace then [] else [' ']) ++ collapseSpacesAux rest true
    else c :: collapseSpacesAux rest false

/-- `TextNormalizer.clean_search_text`: normalize, replace characters outside
`[\w\s\-'.]` by a space, collapse whitespace runs, strip. -/
def clean_search_text (text : String) : String :=
  if text = "" then ""
  else
    let t := normalize_unicode text
    let t2 : List Char := t.data.map (fun c =>
      if isWordChar c || isPySpace c || c = '-' || c = '\'' || c = '.' then c else ' ')
    pyStrip ⟨collapseSpacesAux t2 false⟩

/-- Membership in the Arabic Unicode block U+0600–U+06FF
(the source comparison `'؀' <= char <= 'ۿ'`). -/
def isArabicChar (c : Char) : Bool := 0x600 ≤ c.toNat && c.toNat ≤ 0x6FF

/-- Number of characters of `text` in the Arabic block. -/
def arabicCount (text : String) : ℕ :=
  (text.data.filter isArabicChar).length

/-- Significand of the IEEE-754 double nearest `0.3`: `0.3 = mant03 / 2^54`. -/
def mant03 : ℕ := 5404319552844595

/-- Structural (fueled) binary logarithm; with fuel `f` it agrees with
`Nat.log2` on every `n < 2^f`.  Used so that the embedding stays
kernel-computable. -/
def log2Fuel : ℕ → ℕ → ℕ
  | 0, _ => 0
  | fuel + 1, n => if 2 ≤ n then log2Fuel fuel (n / 2) + 1 else 0

/-- Binary logarithm of the numbers arising here (all far below `2^128`). -/
def pyLog2 (n : ℕ) : ℕ := log2Fuel 128 n

/-- Round the integer `m` to a multiple of `2^k`, round half to even. -/
def floatRound (m k : ℕ) : ℕ :=
  if 2 ^ (k - 1) < m % 2 ^ k ∨ (m % 2 ^ k = 2 ^ (k - 1) ∧ (m / 2 ^ k) % 2 = 1)
  then (m / 2 ^ k + 1) * 2 ^ k
  else (m / 2 ^ k) * 2 ^ k

/-- The IEEE-754 double product `len * 0.3`, as Python evaluates it, scaled by
`2^54`: the exact product `len * mant03` is rounded to 53 significant bits,
round half to even.  (No overflow/subnormal handling is needed for the list
lengths that can occur.) -/
def floatNum03 (len : ℕ) : ℕ :=
  if len * mant03 < 2 ^ 53 then len * mant03
  else floatRound (len * mant03) (pyLog2 (len * mant03) - 52)

/-- `ArabicTransliterator.is_arabic_text`: `False` on empty text, otherwise the
comparison `arabic_chars > len(text) * 0.3` where the right-hand side is the
double-precision product (both sides scaled by `2^54`). -/
def is_arabic_text (text : String) : Bool :=
  if text = "" then false
  else decide (floatNum03 text.length < arabicCount text * 2 ^ 54)

/-- A 20-character string with exactly six characters in the Arabic block,
i.e. exactly 30% Arabic. -/
def boundaryText : String := "ااااااabcdefghijklmn"

/-! ### `difflib.SequenceMatcher` (Ratcliff/Obershelp) -/

/-- Length of the longest common prefix of two character lists. -/
def commonLen : List Char → List Char → ℕ
  | a :: as, b :: bs => if a = b then commonLen as bs + 1 else 0
  | _, _ => 0

/-- `SequenceMatcher.find_longest_match` without junk — Python's behaviour
for the short strings this program compares (`autojunk` only engages for
sequences of 200+ elements, which cannot arise from track titles or artist
names): among all maximal matching blocks, the one starting earliest in `a`
and then earliest in `b`, as `(i, j, size)`. -/
def longestBlock (a b : List Char) : ℕ × ℕ × ℕ :=
  (List.range (a.length + 1)).foldl (fun best i =>
    (List.range (b.length + 1)).foldl (fun best j =>
      let k := commonLen (a.drop i) (b.drop j)
      if best.2.2 < k then (i, j, k) else best) best) (0, 0, 0)

/-- Total size of the `matching_blocks` decomposition: recursively split
around the longest matching block.  The fuel argument strictly exceeds the
possible recursion depth (`a.length + b.length + 1` always suffices, since
each recursive call strictly shrinks `a.length + b.length`), so the fueled
recursion computes exactly the Python value. -/
def rcoTotalFuel : ℕ → List Char → List Char → ℕ
  | 0, _, _ => 0
  | fuel + 1, a, b =>
    if (longestBlock a b).2.2 = 0 then 0
    else
      rcoTotalFuel fuel (a.take (longestBlock a b).1) (b.take (longestBlock a b).2.1) +
        (longestBlock a b).2.2 +
        rcoTotalFuel fuel (a.drop ((longestBlock a b).1 + (longestBlock a b).2.2))
          (b.drop ((longestBlock a b).2.1 + (longestBlock a b).2.2))

/-- Total number of matching elements between `a` and `b`. -/
def rcoTotal (a b : List Char) : ℕ :=
  rcoTotalFuel (a.length + b.length + 1) a b

/-- `SequenceMatcher.ratio()`: `2*M / (len(a)+len(b))`, and `1.0` when both
sequences are empty (difflib's `_calculate_ratio`). -/
def rcoScore (a b : List Char) : ℚ :=
  if a.length + b.length = 0 then 1
  else (2 * rcoTotal a b : ℚ) / (a.length + b.length)

/-- `TextNormalizer.similarity_score`: `0.0` when either input is empty,
`1.0` when the cleaned lower-cased forms coincide, otherwise the
SequenceMatcher ratio of the cleaned forms. -/
def similarity_score (text1 text2 : String) : ℚ :=
  if text1 = "" ∨ text2 = "" then 0
  else
    let norm1 := clean_search_text (pyLower text1)
    let norm2 := clean_search_text (pyLower text2)
    if norm1 = norm2 then 1
    else rcoScore norm1.data norm2.data

/-! ### `ArabicTransliterator` variants and phonetic similarity -/

/-- `ArabicTransliterator.ARABIC_TRANSLITERATIONS` (the source writes the
key `وليد` twice with the same value; a Python dict literal keeps one). -/
def ARABIC_TRANSLITERATIONS : List (String × List String) := [
  ("موسى", ["Moussa", "Mousv", "Mousa", "Musa", "Mousse", "Mowsa"]),
  ("أحمد", ["Ahmed", "Ahmad", "Ahmet", "Ahamad"]),
  ("محمد", ["Mohamed", "Mohammed", "Muhammad", "Mohamad", "Mahmoud"]),
  ("حسين", ["Hussein", "Husyn", "Hosein", "Husain", "Hussien"]),
  ("علي", ["Ali", "Aly", "Alee"]),
  ("عمر", ["Omar", "Omer", "Umar"]),
  ("خالد", ["Khaled", "Khalid", "Chalid"]),
  ("محمود", ["Mahmoud", "Mahmud", "Mahmod"]),
  ("يوسف", ["Youssef", "Yusuf", "Joseph", "Yosef"]),
  ("كريم", ["Karim", "Kareem", "Kreem"]),
  ("رامي", ["Rami", "Ramey", "Rammy"]),
  ("سامي", ["Sami", "Sammy", "Samey"]),
  ("طارق", ["Tarek", "Tariq", "Tarik"]),
  ("وليد", ["Walid", "Waleed", "Waleed"]),
  ("هشام", ["Hisham", "Hesham", "Hicham"]),
  ("أمير", ["Amir", "Ameer", "Emir"]),
  ("فارس", ["Fares", "Fars", "Faris"]),
  ("مراد", ["Murad", "Morad", "Mrad"]),
  ("نادر", ["Nader", "Nadir", "Nadeer"])]

/-- `ArabicTransliterator.PHONETIC_PATTERNS`. -/
def PHONETIC_PATTERNS : List (Char × List String) := [
  ('ش', ["sh", "ch"]),
  ('خ', ["kh", "ch", "x"]),
  ('ج', ["j", "g"]),
  ('ح', ["h", "7"]),
  ('ع', ["a", "e", "3"]),
  ('غ', ["gh", "g"]),
  ('ق', ["q", "k"]),
  ('ص', ["s", "z"]),
  ('ض', ["d", "z"]),
  ('ط', ["t"]),
  ('ظ', ["z", "th"]),
  ('ذ', ["th", "z"]),
  ('ث', ["th", "s"]),
  ('ء', ["a", "e", ""]),
  ('ى', ["a", "e", "i"]),
  ('و', ["w", "u", "o"]),
  ('ي', ["y", "i", "e"])]

/-- Python `str.replace(old_char, new)` for a single-character pattern. -/
def strReplaceChar (s : String) (c : Char) (rep : String) : String :=
  ⟨(s.data.map (fun ch => if ch = c then rep.data else [ch])).flatten⟩

/-- Python `str.title()` on the repertoire at hand: a cased (ASCII-letter)
character is upper-cased when the previous character is uncased, lower-cased
otherwise; uncased characters (Arabic letters, digits) pass through. -/
def pyTitleAux : List Char → Bool → List Char
  | [], _ => []
  | c :: rest, prevCased =>
    let cased := c.isUpper || c.isLower
    (if cased && !prevCased then c.toUpper
     else if cased then c.toLower else c) :: pyTitleAux rest cased

/-- Python `str.title()`. -/
def pyTitle (s : String) : String := ⟨pyTitleAux s.data false⟩

/-- `ArabicTransliterator._generate_phonetic_variants`: for every phonetic
pattern whose Arabic character occurs in the text, and every replacement,
the title-cased full replacement — if it changed the string and has length
above 1. -/
def generate_phonetic_variants (arabic_text : String) : List String :=
  PHONETIC_PATTERNS.flatMap (fun p =>
    if arabic_text.data.contains p.1 then
      (p.2.map (fun rep => strReplaceChar arabic_text p.1 rep)).filterMap
        (fun nv => if nv ≠ arabic_text ∧ 1 < nv.length then some (pyTitle nv) else none)
    else [])

/-- `ArabicTransliterator.get_transliteration_variants`: table variants (when
the name is a key) then phonetic variants; blank entries dropped and
duplicates removed.  CPython deduplicates through a `set`, whose iteration
order is unspecified (hash-randomised); it is modelled as keeping the first
occurrence.  None of the verified properties depends on this order. -/
def get_transliteration_variants (arabic_name : String) : List String :=
  let table := (ARABIC_TRANSLITERATIONS.lookup arabic_name).getD []
  let phonetic := generate_phonetic_variants arabic_name
  ((table ++ phonetic).filter (fun v => pyStrip v ≠ "")).eraseDups

/-- `ArabicTransliterator._phonetic_similarity`: best SequenceMatcher ratio
of any transliteration variant (lower-cased) against the candidate
(lower-cased); `0.0` on empty input. -/
def phonetic_similarity (arabic_text english_text : String) : ℚ :=
  if arabic_text = "" ∨ english_text = "" then 0
  else
    (get_transliteration_variants arabic_text).foldl
      (fun best v => max best (rcoScore (pyLower v).data (pyLower english_text).data)) 0

/-! ### Track data and confidence scoring -/

/-- `AnghamiTrack` (title and artist strings; the `__post_init__` trimming is
a constructor-side invariant not needed by the verified properties). -/
structure AnghamiTrack where
  title : String
  artists : List String
deriving Repr, DecidableEq

/-- `AnghamiTrack.primary_artist`. -/
def AnghamiTrack.primary_artist (t : AnghamiTrack) : String := t.artists.headD ""

/-- `SpotifyTrackMatch`. -/
structure SpotifyTrackMatch where
  spotify_id : String
  title : String
  artists : List String
  album : String
  duration_ms : ℕ
  preview_url : Option String
  external_urls : List (String × String)
  confidence_score : ℚ
  match_strategy : String
  match_reasons : List String
deriving Repr, DecidableEq

/-- A raw track object from the Spotify search API, after the field
extraction done in `_score_matches` (`name`, artist `name`s, album `name`). -/
structure SpotifyRawTrack where
  id : String
  name : String
  artistNames : List String
  albumName : String
  duration_ms : ℕ
  preview_url : Option String
  external_urls : List (String × String)
deriving Repr, DecidableEq

/-- Python substring test `needle in hay` on character lists. -/
def startsWithList : List Char → List Char → Bool
  | [], _ => true
  | _ :: _, [] => false
  | a :: as, b :: bs => a = b && startsWithList as bs

/-- Python substring test `needle in hay` on character lists. -/
def listContainsSub (needle : List Char) : List Char → Bool
  | [] => decide (needle = [])
  | c :: rest => startsWithList needle (c :: rest) || listContainsSub needle rest

/-- Python `needle in hay` for strings. -/
def strContainsSub (hay needle : String) : Bool := listContainsSub needle.data hay.data

/-- Best transliteration-variant similarity of an Arabic title against a
candidate title (the variant loop inside `_calculate_confidence`). -/
def translitTitleSimilarity (title spotify_title : String) : ℚ :=
  (get_transliteration_variants title).foldl
    (fun acc v => max acc (similarity_score v spotify_title)) 0

/-- Similarity of one Anghami/Spotify artist pair in `_calculate_confidence`:
Arabic-aware matching (phonetic similarity with a plain-similarity fallback)
for Arabic artist names on an Arabic track, plain similarity otherwise. -/
def artistPairSimilarity (is_arabic : Bool) (anghami_artist spotify_artist : String) : ℚ :=
  if is_arabic && is_arabic_text anghami_artist then
    max (phonetic_similarity anghami_artist spotify_artist)
      (similarity_score anghami_artist spotify_artist)
  else similarity_score anghami_artist spotify_artist

/-- The double loop of `_calculate_confidence` over anghami×spotify artist
pairs, returning the best similarity and the matched Spotify artist name
(`(0.0, "")` when there are no pairs; the update is strict, keeping the first
maximal pair). -/
def bestArtistMatch (sim : String → String → ℚ)
    (anghami_artists spotify_artists : List String) : ℚ × String :=
  ((anghami_artists.map (fun ag => spotify_artists.map (fun sp => (ag, sp)))).flatten).foldl
    (fun (acc : ℚ × String) p =>
      let s := sim p.1 p.2
      if acc.1 < s then (s, p.2) else acc) (0, "")

/-- `SpotifyTrackMatcher._calculate_confidence`, returning
`(final_score, reasons)`.  Floats are exact rationals: every constant in the
source (`0.4`, `0.5`, `0.1`, `0.05`, thresholds) is a short decimal, and the
only place where a rounding difference could be observable — the accumulated
sum crossing `1.0` — is neutralised by the final `min(·, 1.0)` clamp. -/
def calculate_confidence (track : AnghamiTrack) (spotify_title : String)
    (spotify_artists : List String) (_spotify_album : String) : ℚ × List String :=
  let is_arabic := is_arabic_text track.title || track.artists.any is_arabic_text
  let regular_similarity := similarity_score track.title spotify_title
  let transliteration_similarity :=
    if is_arabic then translitTitleSimilarity track.title spotify_title
    else 0
  let title_similarity :=
    if is_arabic then max regular_similarity transliteration_similarity
    else regular_similarity
  let title_weight : ℚ := if is_arabic then 0.4 else 0.5
  let artist_weight : ℚ := if is_arabic then 0.5 else 0.4
  let reasons0 : List String :=
    if is_arabic ∧ regular_similarity < transliteration_similarity then
      ["Arabic transliteration title match"] else []
  let titleReasons : List String :=
    if 0.9 < title_similarity then ["Excellent title match"]
    else if 0.7 < title_similarity then ["Good title match"]
    else if 0.5 < title_similarity then ["Partial title match"]
    else []
  let bestPair := bestArtistMatch (artistPairSimilarity is_arabic)
    track.artists spotify_artists
  let best_artist_similarity := bestPair.1
  let best_artist_match := bestPair.2
  let artistReasons : List String :=
    if 0.9 < best_artist_similarity then
      ["Excellent artist match: " ++ best_artist_match]
    else if 0.7 < best_artist_similarity then
      ["Good artist match: " ++ best_artist_match]
    else if 0.5 < best_artist_similarity then
      ["Partial artist match: " ++ best_artist_match]
    else []
  let reasonsA := reasons0 ++ titleReasons ++ artistReasons
  let arabicBlock : List ℚ × List String :=
    if is_arabic then
      let idPart : List ℚ × List String :=
        if 0.6 < best_artist_similarity then
          ([0.1], ["Arabic artist successfully identified"]) else ([], [])
      let reasonsMid := reasonsA ++ idPart.2
      let discoPart : List ℚ × List String :=
        if reasonsMid.any (fun r => strContainsSub r "discography") then
          ([0.1], ["Found via artist discography search"]) else ([], [])
      (idPart.1 ++ discoPart.1, reasonsMid ++ discoPart.2)
    else ([], reasonsA)
  let titleBonus : List ℚ × List String :=
    if title_similarity = 1 then ([0.05], ["Exact title match"]) else ([], [])
  let artistBonus : List ℚ × List String :=
    if best_artist_similarity = 1 then ([0.05], ["Exact artist match"]) else ([], [])
  let score_components :=
    [title_similarity * title_weight, best_artist_similarity * artist_weight] ++
      arabicBlock.1 ++ titleBonus.1 ++ artistBonus.1
  let final_score := min (score_components.foldl (fun a b => a + b) 0) 1
  let finalReason : List String :=
    if is_arabic ∧ 0.5 < final_score then
      ["Arabic track with reasonable confidence"] else []
  (final_score, arabicBlock.2 ++ titleBonus.2 ++ artistBonus.2 ++ finalReason)

/-- Descending order on confidence scores (the sort key of
`_score_matches`). -/
def byConfDesc (x y : SpotifyTrackMatch) : Prop :=
  y.confidence_score ≤ x.confidence_score

instance : DecidableRel byConfDesc :=
  fun x y => inferInstanceAs (Decidable (y.confidence_score ≤ x.confidence_score))

instance : IsTotal SpotifyTrackMatch byConfDesc :=
  ⟨fun a b => le_total b.confidence_score a.confidence_score⟩

instance : IsTrans SpotifyTrackMatch byConfDesc :=
  ⟨fun _ _ _ h1 h2 => le_trans h2 h1⟩

/-- `SpotifyTrackMatcher._score_matches`: score every raw API track and sort
the batch by descending confidence (`list.sort(key=…, reverse=True)` is a
stable descending sort, which insertion sort with `byConfDesc` reproduces
exactly; the per-track `try/except` never fires in this pure model). -/
def score_matches (track : AnghamiTrack) (spotify_tracks : List SpotifyRawTrack)
    (strategy : String) : List SpotifyTrackMatch :=
  let scored := spotify_tracks.map (fun st =>
    let conf := calculate_confidence track st.name st.artistNames st.albumName
    { spotify_id := st.id
      title := st.name
      artists := st.artistNames
      album := st.albumName
      duration_ms := st.duration_ms
      preview_url := st.preview_url
      external_urls := st.external_urls
      confidence_score := conf.1
      match_strategy := strategy
      match_reasons := conf.2 : SpotifyTrackMatch })
  scored.insertionSort byConfDesc

/-! ### Search cache and `_search_spotify` -/

/-- One cache entry: stored payload and insertion time.  `datetime.now()` is
modelled as a rational number of seconds supplied by the caller. -/
structure CacheEntry where
  data : List SpotifyRawTrack
  timestamp : ℚ
deriving Repr, DecidableEq

/-- `SpotifySearchCache`: entries keyed by
`f"{search_type}:{query.lower().strip()}"`, with the configured TTL
(default 24 hours, in seconds). -/
structure SpotifySearchCache where
  cache : List (String × CacheEntry)
  cache_duration : ℚ
deriving Repr, DecidableEq

/-- A fresh cache with the default 24-hour TTL. -/
def SpotifySearchCache.init : SpotifySearchCache := ⟨[], 24 * 3600⟩

/-- `SpotifySearchCache._get_cache_key`. -/
def cacheKey (query search_type : String) : String :=
  search_type ++ ":" ++ pyStrip (pyLower query)

/-- `SpotifySearchCache.get`: a hit younger than the TTL returns the stored
data; an entry at least TTL old is evicted and the call misses. -/
def SpotifySearchCache.get (c : SpotifySearchCache) (query search_type : String)
    (now : ℚ) : Option (List SpotifyRawTrack) × SpotifySearchCache :=
  match c.cache.lookup (cacheKey query search_type) with
  | some entry =>
    if now - entry.timestamp < c.cache_duration then (some entry.data, c)
    else (none, { c with
      cache := c.cache.filter (fun p => p.1 != cacheKey query search_type) })
  | none => (none, c)

/-- `SpotifySearchCache.set` (Python dict assignment: the key maps to the new
entry). -/
def SpotifySearchCache.set (c : SpotifySearchCache) (query : String)
    (data : List SpotifyRawTrack) (search_type : String) (now : ℚ) :
    SpotifySearchCache :=
  { c with cache := (cacheKey query search_type, ⟨data, now⟩) ::
      c.cache.filter (fun p => p.1 != cacheKey query search_type) }

/-- The mutable counters of `SpotifyTrackMatcher.stats`. -/
structure MatcherStats where
  total_searches : ℕ := 0
  cache_hits : ℕ := 0
  api_calls : ℕ := 0
  successful_matches : ℕ := 0
  high_confidence_matches : ℕ := 0
  failed_searches : ℕ := 0
  arabic_tracks_processed : ℕ := 0
  arabic_tracks_matched : ℕ := 0
  arabic_high_confidence : ℕ := 0
  arabic_discography_searches : ℕ := 0
  tracks_requiring_review : ℕ := 0
deriving Repr, DecidableEq

/-- The mutable state of a `SpotifyTrackMatcher` (cache, stats, rate-limit
clock). -/
structure MatcherState where
  cache : SpotifySearchCache
  stats : MatcherStats
  last_request_time : ℚ
deriving Repr, DecidableEq

/-- A freshly constructed matcher. -/
def MatcherState.init : MatcherState := ⟨SpotifySearchCache.init, {}, 0⟩

/-- A raw artist object from the artist-search API. -/
structure SpotifyArtistRaw where
  id : String
  name : String
deriving Repr, DecidableEq

/-- A raw album object from the artist-albums API. -/
structure SpotifyAlbumRaw where
  id : String
  name : String
deriving Repr, DecidableEq

/-- A raw track object from the album-tracks API (no album field — the source
attaches the surrounding album object itself). -/
structure SpotifyAlbumTrackRaw where
  id : String
  name : String
  artistNames : List String
  duration_ms : ℕ
  preview_url : Option String
  external_urls : List (String × String)
deriving Repr, DecidableEq

/-- The outbound Spotify Web API, as a deterministic oracle keyed by the
request parameters the source sends (the `q` string for searches, the
artist/album id for discography walks).  A real run corresponds to one
choice of oracle. -/
structure SpotifyApi where
  searchTracks : String → List SpotifyRawTrack
  searchArtists : String → List SpotifyArtistRaw
  artistAlbums : String → List SpotifyAlbumRaw
  albumTracks : String → List SpotifyAlbumTrackRaw

/-- `SpotifyTrackMatcher._search_spotify`, API branch: issue the request,
count it, cache the payload, update the rate-limit clock.  (`await sleep`
pacing does not advance the modelled clock; exceptions do not arise from a
total oracle.) -/
def searchApiCall (api : SpotifyApi) (st : MatcherState) (query : String)
    (now : ℚ) (c : SpotifySearchCache) : List SpotifyRawTrack × MatcherState :=
  (api.searchTracks query,
    { st with
      cache := c.set query (api.searchTracks query) "track" now
      stats := { st.stats with api_calls := st.stats.api_calls + 1 }
      last_request_time := now })

/-- `SpotifyTrackMatcher._search_spotify`: blank queries return `[]`; a cache
hit is returned only when the cached payload is truthy (a cached empty list
falls through to a fresh API call — Python `if cached_result:`). -/
def search_spotify (api : SpotifyApi) (st : MatcherState) (query : String)
    (_strategy : String) (now : ℚ) : List SpotifyRawTrack × MatcherState :=
  if pyStrip query = "" then ([], st)
  else
    match st.cache.get query "track" now with
    | (some cached, c) =>
      if cached ≠ [] then
        (cached, { st with
          cache := c
          stats := { st.stats with cache_hits := st.stats.cache_hits + 1 } })
      else searchApiCall api st query now c
    | (none, c) => searchApiCall api st query now c

/-! ### Search strategies and `extract_main_title` -/

/-- Split a character list at the first occurrence of `closeC`: the content
before it and the remainder after it. -/
def splitAtChar (closeC : Char) : List Char → Option (List Char × List Char)
  | [] => none
  | c :: rest =>
    if c = closeC then some ([], rest)
    else
      match splitAtChar closeC rest with
      | some (inner, after) => some (c :: inner, after)
      | none => none

/-- Remove every non-overlapping leftmost `openC … closeC` block whose inner
content satisfies `p` (a closing character never occurs inside the content —
this mirrors the greedy bracket-body of the source's patterns).  Fuel
strictly above the list length always suffices. -/
def removeDelimitedFuel (openC closeC : Char) (p : List Char → Bool) :
    ℕ → List Char → List Char
  | 0, l => l
  | _ + 1, [] => []
  | fuel + 1, c :: rest =>
    if c = openC then
      match splitAtChar closeC rest with
      | some (inner, after) =>
        if p inner then removeDelimitedFuel openC closeC p fuel after
        else c :: removeDelimitedFuel openC closeC p fuel rest
      | none => c :: removeDelimitedFuel openC closeC p fuel rest
    else c :: removeDelimitedFuel openC closeC p fuel rest

/-- Remove the delimited blocks with enough fuel for the whole list. -/
def removeDelimited (openC closeC : Char) (p : List Char → Bool)
    (l : List Char) : List Char :=
  removeDelimitedFuel openC closeC p (l.length + 1) l

/-- Does the list start with the given (lowercase) word, case-insensitively?
Returns the remainder on success. -/
def dropWordCI : List Char → List Char → Option (List Char)
  | [], l => some l
  | _ :: _, [] => none
  | w :: ws, c :: cs => if c.toLower = w then dropWordCI ws cs else none

/-- Content of a bracketed feat-pattern (`feat\.?\s+[^X]+` anchored to the
whole content, `X` being the closing bracket, which cannot occur in the
content): the keyword, an optional dot, then at least one whitespace
character followed by at least one further character. -/
def featContent (withDot : Bool) (kw : List Char) (content : List Char) : Bool :=
  match dropWordCI kw content with
  | none => false
  | some rest =>
    let rest2 := if withDot then
        match rest with
        | '.' :: r => r
        | r => r
      else rest
    match rest2 with
    | c :: _ :: _ => isPySpace c
    | _ => false

/-- Bracket content containing a keyword anywhere, case-insensitively
(the `remix`/`version`/`edit` patterns). -/
def containsWordCI (kw : List Char) (content : List Char) : Bool :=
  listContainsSub kw (content.map Char.toLower)

/-- Head match for a suffix pattern `\s+kw\.?\s+.+$`: leading whitespace,
the keyword, an optional dot, whitespace and at least one character. -/
def suffixHeadMatch (kw : List Char) (withDot : Bool) (l : List Char) : Bool :=
  if l.takeWhile isPySpace = [] then false
  else
    match dropWordCI kw (l.dropWhile isPySpace) with
    | none => false
    | some rest1 =>
      let rest2 := if withDot then
          match rest1 with
          | '.' :: r => r
          | r => r
        else rest1
      match rest2 with
      | c :: _ :: _ => isPySpace c
      | _ => false

/-- `re.sub` of a suffix pattern: truncate at the earliest position where the
pattern matches (the match extends to the end of the string). -/
def removeSuffixPattern (kw : List Char) (withDot : Bool) : List Char → List Char
  | [] => []
  | c :: rest =>
    if suffixHeadMatch kw withDot (c :: rest) then []
    else c :: removeSuffixPattern kw withDot rest

/-- `TextNormalizer.extract_main_title`: the source's ten ignore-case
patterns, applied in order, then stripped. -/
def extract_main_title (title : String) : String :=
  if title = "" then ""
  else
    let l1 := removeDelimited '(' ')' (featContent true ['f', 'e', 'a', 't']) title.data
    let l2 := removeDelimited '[' ']' (featContent true ['f', 'e', 'a', 't']) l1
    let l3 := removeDelimited '(' ')'
      (featContent false ['f', 'e', 'a', 't', 'u', 'r', 'i', 'n', 'g']) l2
    let l4 := removeSuffixPattern ['f', 'e', 'a', 't'] true l3
    let l5 := removeSuffixPattern ['f', 'e', 'a', 't', 'u', 'r', 'i', 'n', 'g'] false l4
    let l6 := removeSuffixPattern ['f', 't'] true l5
    let l7 := removeSuffixPattern ['w', 'i', 't', 'h'] false l6
    let l8 := removeDelimited '(' ')' (containsWordCI ['r', 'e', 'm', 'i', 'x']) l7
    let l9 := removeDelimited '(' ')' (containsWordCI ['v', 'e', 'r', 's', 'i', 'o', 'n']) l8
    let l10 := removeDelimited '(' ')' (containsWordCI ['e', 'd', 'i', 't']) l9
    pyStrip ⟨l10⟩

/-- `SpotifyTrackMatcher._generate_search_strategies`: the ordered strategy
cascade as `(name, query)` pairs. -/
def generate_search_strategies (track : AnghamiTrack) : List (String × String) :=
  if track.title = "" ∨ track.primary_artist = "" then []
  else
    let clean_title := clean_search_text track.title
    let clean_artist := clean_search_text track.primary_artist
    let s3 := if clean_title ≠ "" ∧ clean_artist ≠ "" then
        [("normalized_fields",
          "track:\"" ++ clean_title ++ "\" artist:\"" ++ clean_artist ++ "\"")]
      else []
    let main_title := extract_main_title track.title
    let s4 := if main_title ≠ track.title ∧ main_title ≠ "" then
        [("main_title",
          "track:\"" ++ main_title ++ "\" artist:\"" ++ track.primary_artist ++ "\"")]
      else []
    let s6 := if clean_title.length < 3 then
        [("artist_only", "artist:\"" ++ clean_artist ++ "\"")] else []
    let s7 := if 3 < clean_title.length then
        [("title_only", "track:\"" ++ clean_title ++ "\"")] else []
    [("exact_fields",
        "track:\"" ++ track.title ++ "\" artist:\"" ++ track.primary_artist ++ "\""),
      ("exact_quoted",
        "\"" ++ track.title ++ "\" \"" ++ track.primary_artist ++ "\"")] ++
      s3 ++ s4 ++ [("broad_search", clean_title ++ " " ++ clean_artist)] ++ s6 ++ s7

/-! ### The match pipeline -/

/-- `MatchResult` (timing is externally measured and kept at 0 in the
model). -/
structure MatchResult where
  anghami_track : AnghamiTrack
  spotify_matches : List SpotifyTrackMatch := []
  best_match : Option SpotifyTrackMatch := none
  search_queries_tried : List String := []
  total_search_time_ms : ℕ := 0
  error_message : Option String := none
  is_arabic_track : Bool := false
  requires_user_review : Bool := false
  arabic_artist_variants_tried : List String := []
  discography_search_attempted : Bool := false
deriving Repr, DecidableEq

/-- `MatchResult.has_match`. -/
def MatchResult.has_match (r : MatchResult) : Bool := decide (r.spotify_matches ≠ [])

/-- `MatchResult.has_confident_match`. -/
def MatchResult.has_confident_match (r : MatchResult) : Bool :=
  match r.best_match with
  | some m => decide ((0.75 : ℚ) ≤ m.confidence_score)
  | none => false

/-- `MatchResult.match_confidence`. -/
def MatchResult.match_confidence (r : MatchResult) : ℚ :=
  match r.best_match with
  | some m => m.confidence_score
  | none => 0

/-- Python `max(tracks, key=lambda x: x.confidence_score)` — keeps the first
element among equals; `none` on an empty list. -/
def pyMaxByConf : List SpotifyTrackMatch → Option SpotifyTrackMatch
  | [] => none
  | x :: xs => some (xs.foldl (fun best m =>
      if best.confidence_score < m.confidence_score then m else best) x)

/-- The strategy loop of `_match_general_track`: record the query, search,
score and append; stop early on a batch whose best candidate reaches the
0.75 confidence threshold. -/
def match_general_go (api : SpotifyApi) (now : ℚ) (track : AnghamiTrack) :
    List (String × String) → MatchResult → MatcherState →
      MatchResult × MatcherState
  | [], result, st => (result, st)
  | (strategy_name, query) :: rest, result, st =>
    let result := { result with
      search_queries_tried :=
        result.search_queries_tried ++ [strategy_name ++ ": " ++ query] }
    let out := search_spotify api st query strategy_name now
    if out.1 ≠ [] then
      let scored := score_matches track out.1 strategy_name
      let result := { result with spotify_matches := result.spotify_matches ++ scored }
      match pyMaxByConf scored with
      | some best =>
        if (0.75 : ℚ) ≤ best.confidence_score then (result, out.2)
        else match_general_go api now track rest result out.2
      | none => match_general_go api now track rest result out.2
    else match_general_go api now track rest result out.2

/-- `SpotifyTrackMatcher._match_general_track`. -/
def match_general_track (api : SpotifyApi) (now : ℚ) (track : AnghamiTrack)
    (result : MatchResult) (st : MatcherState) : MatchResult × MatcherState :=
  match_general_go api now track (generate_search_strategies track) result st

/-- `SpotifyTrackMatcher._search_spotify_artists` (uncached, does not touch
matcher state; exceptions yield `[]`). -/
def search_spotify_artists (api : SpotifyApi) (artist_name : String) :
    List SpotifyArtistRaw :=
  api.searchArtists ("artist:\"" ++ artist_name ++ "\"")

/-- Descending order on artist-identification scores. -/
def bySimDesc (x y : String × ℚ) : Prop := y.2 ≤ x.2

instance : DecidableRel bySimDesc :=
  fun x y => inferInstanceAs (Decidable (y.2 ≤ x.2))

instance : IsTotal (String × ℚ) bySimDesc := ⟨fun a b => le_total b.2 a.2⟩

instance : IsTrans (String × ℚ) bySimDesc := ⟨fun _ _ _ h1 h2 => le_trans h2 h1⟩

/-- `SpotifyTrackMatcher._identify_arabic_artist`: search up to 8 name
variants, keep artist names with phonetic similarity above 0.5, dedupe with
the best score per name (insertion order, as a Python dict), sort by
descending score (stable) and return the top 5. -/
def identify_arabic_artist (api : SpotifyApi) (arabic_artist_name : String) :
    List (String × ℚ) :=
  if arabic_artist_name = "" then []
  else
    let variants := (get_transliteration_variants arabic_artist_name).take 8
    let identified := variants.flatMap (fun variant =>
      (search_spotify_artists api variant).filterMap (fun artist_data =>
        if (0.5 : ℚ) < phonetic_similarity arabic_artist_name artist_data.name then
          some (artist_data.name, phonetic_similarity arabic_artist_name artist_data.name)
        else none))
    let unique := identified.foldl (fun (acc : List (String × ℚ)) p =>
      match acc.lookup p.1 with
      | some old => if old < p.2 then
          acc.map (fun q => if q.1 = p.1 then (q.1, p.2) else q) else acc
      | none => acc ++ [p]) []
    (unique.insertionSort bySimDesc).take 5

/-- `SpotifyTrackMatcher._search_artist_discography`: resolve the artist id
from the first artist-search hit, walk the first 10 returned albums, and keep
album tracks whose title similarity exceeds 0.4, tagged with the surrounding
album's name (`''` ids are falsy and abort or skip as in the source). -/
def search_artist_discography (api : SpotifyApi) (artist_name track_title : String) :
    List SpotifyRawTrack :=
  match search_spotify_artists api artist_name with
  | [] => []
  | first :: _ =>
    if first.id = "" then []
    else
      ((api.artistAlbums first.id).take 10).flatMap (fun album =>
        if album.id = "" then []
        else
          (api.albumTracks album.id).filterMap (fun tr =>
            if (0.4 : ℚ) < similarity_score track_title tr.name then
              some ⟨tr.id, tr.name, tr.artistNames, album.name, tr.duration_ms,
                tr.preview_url, tr.external_urls⟩
            else none))

/-- The top-3 artist loop of `_match_arabic_track`; returns the updated
result and the success flag. -/
def match_arabic_go (api : SpotifyApi) (track : AnghamiTrack) :
    List (String × ℚ) → MatchResult → MatchResult × Bool
  | [], result => (result, false)
  | (artist_name, _) :: rest, result =>
    let dm := search_artist_discography api artist_name track.title
    if dm ≠ [] then
      let result := { result with discography_search_attempted := true }
      let scored := score_matches track dm ("discography_" ++ artist_name)
      let result := { result with
        spotify_matches := result.spotify_matches ++ scored }
      match pyMaxByConf scored with
      | some best =>
        if (0.6 : ℚ) ≤ best.confidence_score then (result, true)
        else match_arabic_go api track rest result
      | none => match_arabic_go api track rest result
    else match_arabic_go api track rest result

/-- `SpotifyTrackMatcher._match_arabic_track`. -/
def match_arabic_track (api : SpotifyApi) (track : AnghamiTrack)
    (result : MatchResult) : MatchResult × Bool :=
  let identified := identify_arabic_artist api track.primary_artist
  if identified ≠ [] then
    let result := { result with
      arabic_artist_variants_tried := (identified.take 3).map (fun p => p.1) }
    match_arabic_go api track (identified.take 3) result
  else (result, false)

/-- `SpotifyTrackMatcher._finalize_match_result`: select the best match
(Python `max`, first among equals), update statistics, and flag
low-confidence or empty results for user review. -/
def finalize_match_result (result : MatchResult) (stats : MatcherStats) :
    MatchResult × MatcherStats :=
  let stats := if result.is_arabic_track then
      { stats with
        arabic_tracks_processed := stats.arabic_tracks_processed + 1
        arabic_discography_searches :=
          if result.discography_search_attempted then
            stats.arabic_discography_searches + 1
          else stats.arabic_discography_searches }
    else stats
  match pyMaxByConf result.spotify_matches with
  | some best =>
    let result := { result with best_match := some best }
    let stats := { stats with successful_matches := stats.successful_matches + 1 }
    let stats := if result.is_arabic_track then
        { stats with arabic_tracks_matched := stats.arabic_tracks_matched + 1 }
      else stats
    if (0.75 : ℚ) ≤ best.confidence_score then
      (result,
        { stats with
          high_confidence_matches := stats.high_confidence_matches + 1
          arabic_high_confidence :=
            if result.is_arabic_track then stats.arabic_high_confidence + 1
            else stats.arabic_high_confidence })
    else
      ({ result with requires_user_review := true },
        { stats with tracks_requiring_review := stats.tracks_requiring_review + 1 })
  | none =>
    ({ result with requires_user_review := true },
      { stats with tracks_requiring_review := stats.tracks_requiring_review + 1 })

/-- `SpotifyTrackMatcher.match_track`: Arabic detection, the Arabic
artist-first path with general fallback, then finalisation (the search-time
field is externally clocked and stays 0; a total oracle raises no
exceptions). -/
def match_track (api : SpotifyApi) (st : MatcherState) (track : AnghamiTrack)
    (now : ℚ) : MatchResult × MatcherState :=
  let is_arabic := is_arabic_text track.title || track.artists.any is_arabic_text
  let result0 : MatchResult := { anghami_track := track, is_arabic_track := is_arabic }
  let step1 :=
    if is_arabic then
      let arab := match_arabic_track api track result0
      if arab.2 then (arab.1, st)
      else match_general_track api now track arab.1 st
    else match_general_track api now track result0 st
  let fin := finalize_match_result step1.1 step1.2.stats
  (fin.1,
    { step1.2 with stats :=
      { fin.2 with total_searches := fin.2.total_searches + 1 } })

/-! ### Playlist creator: match-result processing and batch upload -/

/-- An entry of `review_required_tracks` in
`SpotifyPlaylistCreator._process_match_results`. -/
structure ReviewTrackEntry where
  anghami_track : AnghamiTrack
  spotify_match : Option SpotifyTrackMatch
  confidence : ℚ
  is_arabic : Bool
  reason : String
deriving Repr, DecidableEq

/-- The review record built for one match result. -/
def reviewEntryOf (r : MatchResult) : ReviewTrackEntry :=
  ⟨r.anghami_track, r.best_match, r.match_confidence, r.is_arabic_track,
    "Low confidence match requiring user approval"⟩

/-- One iteration of the loop in `_process_match_results`: results without
any match are skipped (`if not result.has_match: continue`); review-needing
results are recorded; the rest contribute a `spotify:track:` URI when a best
match is present. -/
def processStep (skip_user_review : Bool)
    (acc : List String × List ReviewTrackEntry) (r : MatchResult) :
    List String × List ReviewTrackEntry :=
  if !r.has_match then acc
  else if r.requires_user_review && !skip_user_review then
    (acc.1, acc.2 ++ [reviewEntryOf r])
  else
    match r.best_match with
    | some m => (acc.1 ++ ["spotify:track:" ++ m.spotify_id], acc.2)
    | none => acc

/-- `SpotifyPlaylistCreator._process_match_results`: returns
`(track_uris, review_tracks)`. -/
def process_match_results (match_results : List MatchResult)
    (skip_user_review : Bool) : List String × List ReviewTrackEntry :=
  match_results.foldl (processStep skip_user_review) ([], [])

/-- A record of `failed_tracks` in
`SpotifyPlaylistCreator._add_tracks_to_playlist`. -/
structure FailedTrackEntry where
  uri : String
  error : String
  batch : ℕ
deriving Repr, DecidableEq

/-- The batches `track_uris[i:i+100]` of the upload loop, as a fueled
recursion (fuel above the list length always suffices). -/
def chunkFuel : ℕ → List String → List (List String)
  | 0, _ => []
  | _ + 1, [] => []
  | fuel + 1, c :: rest =>
    ((c :: rest).take 100) :: chunkFuel fuel ((c :: rest).drop 100)

/-- The upload batches of a URI list. -/
def chunk100 (l : List String) : List (List String) :=
  chunkFuel (l.length + 1) l

/-- The batch loop of `_add_tracks_to_playlist`.  `upload batch_number` is
the outcome of the one API call for that batch: `none` on success, `some e`
when the call raises the error text `e`.  Returns
`(added_count, failed_tracks, attempted_payloads)` — the last component
records the URI payload of every upload call actually made. -/
def add_tracks_go (upload : ℕ → Option String) :
    ℕ → List String → ℕ → ℕ × List FailedTrackEntry × List (List String)
  | 0, _, _ => (0, [], [])
  | _ + 1, [], _ => (0, [], [])
  | fuel + 1, c :: rest, batch_number =>
    let batch := (c :: rest).take 100
    let recres := add_tracks_go upload fuel ((c :: rest).drop 100) (batch_number + 1)
    match upload batch_number with
    | none => (batch.length + recres.1, recres.2.1, batch :: recres.2.2)
    | some e =>
      (recres.1, batch.map (fun uri => ⟨uri, e, batch_number⟩) ++ recres.2.1,
        batch :: recres.2.2)

/-- `SpotifyPlaylistCreator._add_tracks_to_playlist` (playlist id and the
pacing sleeps are irrelevant to the returned data and omitted). -/
def add_tracks_to_playlist (upload : ℕ → Option String)
    (track_uris : List String) : ℕ × List FailedTrackEntry × List (List String) :=
  if track_uris = [] then (0, [], [])
  else add_tracks_go upload (track_uris.length + 1) track_uris 1

/-- Match result used by the C2 counterexample: review-flagged but without
any candidate. -/
def noMatchResult : MatchResult :=
  { anghami_track := ⟨"X", ["Y"]⟩, requires_user_review := true }

/-! ### Migration service (`migration_service.py`) -/

/-- `MigrationStatus` (the pydantic model; `progress` is a float, modelled
exactly as a rational). -/
structure MigrationStatus where
  sessionId : String
  status : String
  progress : ℚ
  currentPlaylist : Option String := none
  totalPlaylists : ℕ
  completedPlaylists : ℕ
  totalTracks : ℕ
  matchedTracks : ℕ
  createdPlaylists : ℕ
  errors : List String
  message : Option String := none
deriving Repr, DecidableEq

/-- `create_migration_status`. -/
def create_migration_status (session_id : String) (playlist_ids : List String)
    (total_tracks : ℕ) : MigrationStatus :=
  { sessionId := session_id
    status := "extracting"
    progress := 0
    totalPlaylists := playlist_ids.length
    completedPlaylists := 0
    totalTracks := total_tracks
    matchedTracks := 0
    createdPlaylists := 0
    errors := []
    message := some "Starting playlist extraction..." }

/-- The mutation `stop_migration` performs on the session's status object. -/
def stopStatus (st : MigrationStatus) : MigrationStatus :=
  { st with
    status := "stopped", message := some "Migration stopped by user" }

/-- `stop_migration`: the process-wide `migration_sessions` dict is modelled
as a partial map from session ids to statuses; a present session has its
status object mutated in place, an absent one leaves the registry
untouched. -/
def stop_migration (sessions : String → Option MigrationStatus)
    (session_id : String) : Bool × (String → Option MigrationStatus) :=
  match sessions session_id with
  | some st =>
    (true, fun k => if k = session_id then some (stopStatus st) else sessions k)
  | none => (false, sessions)

/-- The mock playlists `simulate_migration` fabricates from the requested
ids: `Playlist {i+1}` with `10 + 5*i` tracks. -/
structure MockPlaylist where
  id : String
  name : String
  trackCount : ℕ

/-- The mock playlist list of `simulate_migration`. -/
def mockPlaylists (playlist_ids : List String) : List MockPlaylist :=
  playlist_ids.enum.map (fun p =>
    ⟨p.2, "Playlist " ++ toString (p.1 + 1), 10 + p.1 * 5⟩)

/-- One atomic step of the `simulate_migration` coroutine: either a status
mutation or an `await asyncio.sleep` suspension point (where a stop request
can interleave). -/
inductive SimEvent where
  | mut (f : MigrationStatus → MigrationStatus)
  | pause

/-- Entry of the extraction phase. -/
def extractEntry (st : MigrationStatus) : MigrationStatus :=
  { st with
    status := "extracting"
    message := some "Extracting playlists from Anghami..." }

/-- One extraction-loop iteration (before its sleep). -/
def extractIter (n i : ℕ) (name : String) (st : MigrationStatus) : MigrationStatus :=
  { st with
    progress := (i : ℚ) / n * 25
    currentPlaylist := some name
    message := some ("Extracting: " ++ name) }

/-- Entry of the matching phase. -/
def matchingEntry (st : MigrationStatus) : MigrationStatus :=
  { st with
    status := "matching"
    message := some "Matching tracks with Spotify..." }

/-- One matching-loop iteration: `mc` is the running processed-track count,
`tnum` the 0-based track number inside the playlist of `count` tracks. -/
def matchingIter (total mc : ℕ) (name : String) (tnum count : ℕ)
    (st : MigrationStatus) : MigrationStatus :=
  { st with
    matchedTracks := mc
    progress := 25 + (mc : ℚ) / total * 50
    message := some ("Matching tracks in: " ++ name ++ " (" ++
      toString (tnum + 1) ++ "/" ++ toString count ++ ")" ++
      (if strContainsSub name "Arabic" || strContainsSub name "موسى" then
        " - Reviewing Arabic track match" else "")) }

/-- Entry of the creating phase. -/
def creatingEntry (st : MigrationStatus) : MigrationStatus :=
  { st with
    status := "creating"
    message := some "Creating playlists in Spotify..." }

/-- One creating-loop iteration. -/
def creatingIter (n i : ℕ) (name : String) (st : MigrationStatus) : MigrationStatus :=
  { st with
    currentPlaylist := some name
    progress := 75 + ((i : ℚ) + 1) / n * 25
    message := some ("Creating Spotify playlist: " ++ name)
    completedPlaylists := i + 1
    createdPlaylists := i + 1 }

/-- The completion block. -/
def completeStep (n : ℕ) (st : MigrationStatus) : MigrationStatus :=
  { st with
    status := "completed"
    progress := 100
    message := some ("Successfully migrated " ++ toString n ++ " playlists!")
    currentPlaylist := none }

/-- The matching-phase events: per playlist, set `currentPlaylist`, then one
mutation + sleep per track, threading the running processed count. -/
def matchingEventsGo (total : ℕ) : List MockPlaylist → ℕ → List SimEvent
  | [], _ => []
  | m :: rest, mc0 =>
    [SimEvent.mut (fun st => { st with
    currentPlaylist := some m.name })] ++
    ((List.range m.trackCount).flatMap (fun t =>
      [SimEvent.mut (matchingIter total (mc0 + t + 1) m.name t m.trackCount),
        SimEvent.pause])) ++
    matchingEventsGo total rest (mc0 + m.trackCount)

/-- The full event trace of `simulate_migration` for the given playlist ids
(the happy path: the coroutine never consults the stop flag, so its trace is
independent of any stop request). -/
def simEvents (playlist_ids : List String) : List SimEvent :=
  let mocks := mockPlaylists playlist_ids
  let n := mocks.length
  let total := (mocks.map (fun m => m.trackCount)).sum
  [SimEvent.mut extractEntry] ++
  (mocks.enum.flatMap (fun p =>
    [SimEvent.mut (extractIter n p.1 p.2.name), SimEvent.pause])) ++
  [SimEvent.mut matchingEntry] ++
  matchingEventsGo total mocks 0 ++
  [SimEvent.mut creatingEntry] ++
  (mocks.enum.flatMap (fun p =>
    [SimEvent.mut (creatingIter n p.1 p.2.name), SimEvent.pause])) ++
  [SimEvent.mut (completeStep n)]

/-- Group an event trace into the atomic segments between suspension
points: a stop request can only interleave at segment boundaries. -/
def segmentsOf : List SimEvent → List (MigrationStatus → MigrationStatus)
  | [] => [fun st => st]
  | SimEvent.mut f :: rest =>
    match segmentsOf rest with
    | g :: gs => (fun st => g (f st)) :: gs
    | [] => [f]
  | SimEvent.pause :: rest => (fun st => st) :: segmentsOf rest

/-- Run a list of segments over a status. -/
def runSegments (segs : List (MigrationStatus → MigrationStatus))
    (st : MigrationStatus) : MigrationStatus :=
  segs.foldl (fun s f => f s) st

/-- A concrete status and registry for the `stop_migration` witness. -/
def exampleStatus : MigrationStatus :=
  create_migration_status "s1" ["p1", "p2"] 30

/-- A registry holding exactly the session `s1`. -/
def exampleRegistry : String → Option MigrationStatus :=
  fun k => if k = "s1" then some exampleStatus else none

/-! ### Concrete API scenarios used by counterexamples and witnesses -/

/-- An API oracle that finds nothing. -/
def emptyApi : SpotifyApi :=
  ⟨fun _ => [], fun _ => [], fun _ => [], fun _ => []⟩

/-- An API oracle that returns one fixed track for every search. -/
def oneTrackApi : SpotifyApi :=
  ⟨fun _ => [⟨"id1", "T", ["A"], "Al", 0, none, []⟩],
    fun _ => [], fun _ => [], fun _ => []⟩

/-- Track used by the candidate-ordering counterexample. -/
def orderingTrack : AnghamiTrack := ⟨"Abc", ["Zz"]⟩

/-- API oracle for the ordering counterexample: the field-qualified query
finds an unrelated track, the quoted query finds the exact track. -/
def orderingApi : SpotifyApi where
  searchTracks := fun q =>
    if q = "track:\"Abc\" artist:\"Zz\"" then
      [⟨"low1", "Qqq", ["Ww"], "AlbumL", 0, none, []⟩]
    else if q = "\"Abc\" \"Zz\"" then
      [⟨"high1", "Abc", ["Zz"], "AlbumH", 0, none, []⟩]
    else []
  searchArtists := fun _ => []
  artistAlbums := fun _ => []
  albumTracks := fun _ => []

/-- With enough fuel, `log2Fuel` is `Nat.log2`. -/
theorem log2Fuel_agrees (fuel n : ℕ) (h : n < 2 ^ fuel) :
    log2Fuel fuel n = Nat.log2 n := by
  induction fuel generalizing n with
  | zero =>
    have hn : n = 0 := by simpa using h
    subst hn
    rw [log2Fuel, Nat.log2]
    norm_num
  | succ fuel ih =>
    rw [log2Fuel]
    by_cases h2 : 2 ≤ n
    · rw [if_pos h2]
      have hdiv : n / 2 < 2 ^ fuel := by
        rw [pow_succ] at h
        omega
      rw [ih (n / 2) hdiv]
      conv_rhs => rw [Nat.log2]
      rw [if_pos h2]
    · rw [if_neg h2]
      rw [Nat.log2, if_neg h2]

/-- `floatRound` always lands on a multiple of `2^k`. -/
theorem floatRound_isMul (m k : ℕ) : ∃ q, floatRound m k = q * 2 ^ k := by
  unfold floatRound
  split
  · exact ⟨m / 2 ^ k + 1, rfl⟩
  · exact ⟨m / 2 ^ k, rfl⟩

/-- Round-to-nearest: `floatRound m k` is within half an ulp of `m`. -/
theorem floatRound_bounds (m k : ℕ) (hk : 1 ≤ k) :
    m ≤ floatRound m k + 2 ^ (k - 1) ∧ floatRound m k ≤ m + 2 ^ (k - 1) := by
  have h2 : 2 ^ (k - 1) * 2 = 2 ^ k := by
    rw [← pow_succ]; congr 1; omega
  have hmod : m % 2 ^ k < 2 ^ k := Nat.mod_lt _ (by positivity)
  have hdm : m / 2 ^ k * 2 ^ k + m % 2 ^ k = m := Nat.div_add_mod' m (2 ^ k)
  unfold floatRound
  split
  next hcond =>
    have hT : 2 ^ (k - 1) ≤ m % 2 ^ k := by
      rcases hcond with h | ⟨h, _⟩
      · omega
      · omega
    have hexp : (m / 2 ^ k + 1) * 2 ^ k = m / 2 ^ k * 2 ^ k + 2 ^ k := by ring
    rw [hexp]
    omega
  next hcond =>
    push_neg at hcond
    have hT : m % 2 ^ k ≤ 2 ^ (k - 1) := hcond.1
    omega

/-- Within the physically possible text lengths, the double-precision
comparison `arabic_chars > len * 0.3` agrees with the exact rational one:
`floatNum03 len < count * 2^54` iff `3 * len < 10 * count`. -/
theorem floatNum03_lt_iff (len count : ℕ) (hlen : len ≤ 2 ^ 40) :
    floatNum03 len < count * 2 ^ 54 ↔ 3 * len < 10 * count := by
  unfold floatNum03
  split
  next hsmall =>
    have hlen1 : len ≤ 1 := by
      by_contra hgt
      have h2m : 2 * mant03 ≤ len * mant03 := Nat.mul_le_mul_right _ (by omega)
      simp only [mant03] at h2m hsmall
      norm_num at hsmall
      omega
    interval_cases len
    · simp only [mant03]
      norm_num
    · simp only [mant03]
      norm_num
      omega
  next hbig =>
    push_neg at hbig
    simp only [mant03] at hbig ⊢
    have hpy : pyLog2 (len * 5404319552844595) = (len * 5404319552844595).log2 :=
      log2Fuel_agrees 128 _ (by
        calc len * 5404319552844595 ≤ 2 ^ 40 * 5404319552844595 :=
              Nat.mul_le_mul_right _ hlen
          _ < 2 ^ 128 := by norm_num)
    rw [hpy]
    have hmpos : len * 5404319552844595 ≠ 0 := by
      intro h0
      rw [h0] at hbig
      exact absurd hbig (by norm_num)
    have hL53 : 53 ≤ (len * 5404319552844595).log2 := (Nat.le_log2 hmpos).mpr hbig
    have hL92 : (len * 5404319552844595).log2 ≤ 92 := by
      have hm93 : len * 5404319552844595 < 2 ^ 93 := by
        calc len * 5404319552844595 ≤ 2 ^ 40 * 5404319552844595 :=
              Nat.mul_le_mul_right _ hlen
          _ < 2 ^ 93 := by norm_num
      have := (Nat.log2_lt hmpos).mpr hm93
      omega
    set L := (len * 5404319552844595).log2 with hLdef
    have hkeq : L - 52 - 1 = L - 53 := by omega
    have hP2 : 2 ^ (L - 53) * 2 = 2 ^ (L - 52) := by
      rw [← pow_succ]; congr 1; omega
    have hPle : 2 ^ (L - 53) * 2 ^ 53 ≤ len * 5404319552844595 := by
      have h1 : 2 ^ L ≤ len * 5404319552844595 := Nat.log2_self_le hmpos
      calc 2 ^ (L - 53) * 2 ^ 53 = 2 ^ (L - 53 + 53) := by rw [pow_add]
        _ = 2 ^ L := by congr 1; omega
        _ ≤ len * 5404319552844595 := h1
    have hPgt : len * 5404319552844595 < 2 ^ (L - 53) * 2 ^ 54 := by
      have h1 : len * 5404319552844595 < 2 ^ (L + 1) := Nat.lt_log2_self
      calc len * 5404319552844595 < 2 ^ (L + 1) := h1
        _ = 2 ^ (L - 53 + 54) := by congr 1; omega
        _ = 2 ^ (L - 53) * 2 ^ 54 := by rw [pow_add]
    obtain ⟨hlo, hhi⟩ := floatRound_bounds (len * 5404319552844595) (L - 52) (by omega)
    rw [hkeq] at hlo hhi
    constructor
    · intro hflt
      by_contra hnot
      push_neg at hnot
      obtain ⟨q', hq'⟩ := floatRound_isMul (len * 5404319552844595) (L - 52)
      have h54 : (2 : ℕ) ^ 54 = 2 ^ (54 - (L - 52)) * 2 ^ (L - 52) := by
        rw [← pow_add]; congr 1; omega
      have halign : floatRound (len * 5404319552844595) (L - 52) + 2 ^ (L - 52) ≤
          count * 2 ^ 54 := by
        rw [hq', h54, ← Nat.mul_assoc]
        rw [hq', h54, ← Nat.mul_assoc] at hflt
        have hlt : q' < count * 2 ^ (54 - (L - 52)) :=
          lt_of_mul_lt_mul_right hflt (Nat.zero_le _)
        calc q' * 2 ^ (L - 52) + 2 ^ (L - 52) = (q' + 1) * 2 ^ (L - 52) := by ring
          _ ≤ count * 2 ^ (54 - (L - 52)) * 2 ^ (L - 52) :=
              Nat.mul_le_mul_right _ hlt
      rw [← hP2] at halign
      norm_num at hPle hPgt hbig
      omega
    · intro h310
      by_contra hnot
      push_neg at hnot
      norm_num at hPle hPgt hbig
      omega

/-- C8 counterexample: the claim says `isScriptText` returns true when at
least 30% of the characters are Arabic, but on a 20-character string with
exactly six Arabic characters (exactly 30%) the code returns `False`
(the comparison is strict: `arabic_chars > len(text) * 0.3`). -/
theorem C8_counterexample :
    is_arabic_text boundaryText = false ∧ boundaryText ≠ "" ∧
    3 * boundaryText.length ≤ 10 * arabicCount boundaryText := by
  refine ⟨?_, by decide, by decide⟩
  rw [is_arabic_text, if_neg (by decide)]
  have hlen : boundaryText.length = 20 := by decide
  have hcnt : arabicCount boundaryText = 6 := by decide
  rw [hlen, hcnt, decide_eq_false_iff_not,
    floatNum03_lt_iff 20 6 (by norm_num)]
  omega

/-- C8 (amended): for every text of physically possible length,
`isScriptText` returns true iff the text is non-empty and strictly more than
30% of its characters fall in the Arabic Unicode block U+0600–U+06FF; in
particular it returns false for the empty string and at the exact 30%
boundary. -/
theorem C8_isScriptText_threshold (text : String) (hlen : text.length ≤ 2 ^ 40) :
    is_arabic_text text = true ↔
      (text ≠ "" ∧ 3 * text.length < 10 * arabicCount text) := by
  rw [is_arabic_text]
  by_cases h : text = ""
  · simp [h]
  · rw [if_neg h]
    simp only [decide_eq_true_eq]
    rw [floatNum03_lt_iff text.length (arabicCount text) hlen]
    simp [h]

/-- Witness for `C8_isScriptText_threshold` at the concrete string `"ااا"`. -/
theorem C8_witness :
    ("ااا" : String).length ≤ 2 ^ 40 ∧
    (is_arabic_text "ااا" = true ↔
      ("ااا" : String) ≠ "" ∧
        3 * ("ااا" : String).length < 10 * arabicCount "ااا") :=
  ⟨by decide, C8_isScriptText_threshold "ااا" (by decide)⟩

/-! ### Bounds on the similarity machinery -/

theorem commonLen_le_left (a : List Char) : ∀ b, commonLen a b ≤ a.length := by
  induction a with
  | nil => intro b; cases b <;> simp [commonLen]
  | cons x xs ih =>
    intro b
    cases b with
    | nil => simp [commonLen]
    | cons y ys =>
      rw [commonLen]
      split
      · have := ih ys
        simp only [List.length_cons]
        omega
      · simp

theorem commonLen_le_right (a : List Char) : ∀ b, commonLen a b ≤ b.length := by
  induction a with
  | nil => intro b; cases b <;> simp [commonLen]
  | cons x xs ih =>
    intro b
    cases b with
    | nil => simp [commonLen]
    | cons y ys =>
      rw [commonLen]
      split
      · have := ih ys
        simp only [List.length_cons]
        omega
      · simp

theorem longestBlock_bounds (a b : List Char) :
    (longestBlock a b).2.2 = 0 ∨
      ((longestBlock a b).1 + (longestBlock a b).2.2 ≤ a.length ∧
        (longestBlock a b).2.1 + (longestBlock a b).2.2 ≤ b.length) := by
  unfold longestBlock
  refine List.foldlRecOn (motive := fun r : ℕ × ℕ × ℕ =>
    r.2.2 = 0 ∨ (r.1 + r.2.2 ≤ a.length ∧ r.2.1 + r.2.2 ≤ b.length)) _ _ _
    (Or.inl rfl) ?_
  intro best hbest i hi
  refine List.foldlRecOn (motive := fun r : ℕ × ℕ × ℕ =>
    r.2.2 = 0 ∨ (r.1 + r.2.2 ≤ a.length ∧ r.2.1 + r.2.2 ≤ b.length)) _ _ _
    hbest ?_
  intro best' hbest' j hj
  dsimp only
  split
  · right
    have hi' : i ≤ a.length := by
      have := List.mem_range.mp hi; omega
    have hj' : j ≤ b.length := by
      have := List.mem_range.mp hj; omega
    have h1 : commonLen (a.drop i) (b.drop j) ≤ (a.drop i).length :=
      commonLen_le_left _ _
    have h2 : commonLen (a.drop i) (b.drop j) ≤ (b.drop j).length :=
      commonLen_le_right _ _
    rw [List.length_drop] at h1 h2
    constructor
    · show i + commonLen (a.drop i) (b.drop j) ≤ a.length
      omega
    · show j + commonLen (a.drop i) (b.drop j) ≤ b.length
      omega
  · exact hbest'

theorem rcoTotalFuel_le_left :
    ∀ (fuel : ℕ) (a b : List Char), rcoTotalFuel fuel a b ≤ a.length := by
  intro fuel
  induction fuel with
  | zero => intro a b; simp [rcoTotalFuel]
  | succ fuel ih =>
    intro a b
    rw [rcoTotalFuel]
    split
    · simp
    next hk =>
      rcases longestBlock_bounds a b with h0 | ⟨h1, h2⟩
      · exact absurd h0 hk
      · have e1 := ih (a.take (longestBlock a b).1) (b.take (longestBlock a b).2.1)
        have e2 := ih (a.drop ((longestBlock a b).1 + (longestBlock a b).2.2))
          (b.drop ((longestBlock a b).2.1 + (longestBlock a b).2.2))
        rw [List.length_take] at e1
        rw [List.length_drop] at e2
        omega

theorem rcoTotalFuel_le_right :
    ∀ (fuel : ℕ) (a b : List Char), rcoTotalFuel fuel a b ≤ b.length := by
  intro fuel
  induction fuel with
  | zero => intro a b; simp [rcoTotalFuel]
  | succ fuel ih =>
    intro a b
    rw [rcoTotalFuel]
    split
    · simp
    next hk =>
      rcases longestBlock_bounds a b with h0 | ⟨h1, h2⟩
      · exact absurd h0 hk
      · have e1 := ih (a.take (longestBlock a b).1) (b.take (longestBlock a b).2.1)
        have e2 := ih (a.drop ((longestBlock a b).1 + (longestBlock a b).2.2))
          (b.drop ((longestBlock a b).2.1 + (longestBlock a b).2.2))
        rw [List.length_take] at e1
        rw [List.length_drop] at e2
        omega

theorem rcoScore_nonneg (a b : List Char) : 0 ≤ rcoScore a b := by
  unfold rcoScore
  split
  · norm_num
  · apply div_nonneg
    · positivity
    · positivity

theorem rcoScore_le_one (a b : List Char) : rcoScore a b ≤ 1 := by
  unfold rcoScore
  split
  · norm_num
  next h =>
    have hM1 : rcoTotal a b ≤ a.length := rcoTotalFuel_le_left _ a b
    have hM2 : rcoTotal a b ≤ b.length := rcoTotalFuel_le_right _ a b
    have hpos : (0 : ℚ) < (a.length : ℚ) + (b.length : ℚ) := by
      have : 0 < a.length + b.length := Nat.pos_of_ne_zero h
      exact_mod_cast this
    rw [div_le_one hpos]
    have : 2 * rcoTotal a b ≤ a.length + b.length := by omega
    exact_mod_cast this

theorem similarity_score_nonneg (t1 t2 : String) : 0 ≤ similarity_score t1 t2 := by
  unfold similarity_score
  split
  · norm_num
  · dsimp only
    split
    · norm_num
    · exact rcoScore_nonneg _ _

theorem similarity_score_le_one (t1 t2 : String) : similarity_score t1 t2 ≤ 1 := by
  unfold similarity_score
  split
  · norm_num
  · dsimp only
    split
    · norm_num
    · exact rcoScore_le_one _ _

theorem similarity_score_eq_one (t1 t2 : String) (h1 : t1 ≠ "") (h2 : t2 ≠ "")
    (h : clean_search_text (pyLower t1) = clean_search_text (pyLower t2)) :
    similarity_score t1 t2 = 1 := by
  unfold similarity_score
  rw [if_neg (by simp [h1, h2]), if_pos h]

theorem foldlMax_le {α : Type} (f : α → ℚ) (c : ℚ) (l : List α) :
    ∀ init : ℚ, init ≤ c → (∀ x ∈ l, f x ≤ c) →
      l.foldl (fun acc v => max acc (f v)) init ≤ c := by
  induction l with
  | nil => intro init h0 _; simpa using h0
  | cons x xs ih =>
    intro init h0 h
    rw [List.foldl_cons]
    exact ih _ (max_le h0 (h x (by simp))) (fun y hy => h y (by simp [hy]))

theorem phonetic_similarity_le_one (a e : String) : phonetic_similarity a e ≤ 1 := by
  unfold phonetic_similarity
  split
  · norm_num
  · exact foldlMax_le (fun v => rcoScore (pyLower v).data (pyLower e).data) 1 _ 0
      (by norm_num) (fun x _ => rcoScore_le_one _ _)

theorem translitTitleSimilarity_le_one (title sp : String) :
    translitTitleSimilarity title sp ≤ 1 := by
  unfold translitTitleSimilarity
  exact foldlMax_le (fun v => similarity_score v sp) 1 _ 0
    (by norm_num) (fun x _ => similarity_score_le_one _ _)

theorem artistPairSimilarity_le_one (flag : Bool) (x y : String) :
    artistPairSimilarity flag x y ≤ 1 := by
  unfold artistPairSimilarity
  split
  · exact max_le (phonetic_similarity_le_one _ _) (similarity_score_le_one _ _)
  · exact similarity_score_le_one _ _

theorem bestFold_fst_mono (sim : String → String → ℚ) (l : List (String × String)) :
    ∀ init : ℚ × String,
      init.1 ≤ (List.foldl (fun (acc : ℚ × String) p =>
        let s := sim p.1 p.2
        if acc.1 < s then (s, p.2) else acc) init l).1 := by
  induction l with
  | nil => intro init; simp
  | cons x xs ih =>
    intro init
    rw [List.foldl_cons]
    refine le_trans ?_ (ih _)
    dsimp only
    split
    next hlt => exact le_of_lt hlt
    next hlt => exact le_rfl

theorem bestFold_le_of_mem (sim : String → String → ℚ) (l : List (String × String))
    (p : String × String) (hp : p ∈ l) :
    ∀ init : ℚ × String,
      sim p.1 p.2 ≤ (List.foldl (fun (acc : ℚ × String) q =>
        let s := sim q.1 q.2
        if acc.1 < s then (s, q.2) else acc) init l).1 := by
  induction l with
  | nil => cases hp
  | cons x xs ih =>
    intro init
    rw [List.foldl_cons]
    rcases List.mem_cons.mp hp with heq | hp'
    · subst heq
      refine le_trans ?_ (bestFold_fst_mono sim xs _)
      dsimp only
      split
      next hlt => exact le_rfl
      next hlt => exact not_lt.mp hlt
    · exact ih hp' _

theorem bestFold_fst_le (sim : String → String → ℚ) (l : List (String × String))
    (c : ℚ) :
    ∀ init : ℚ × String, init.1 ≤ c → (∀ p ∈ l, sim p.1 p.2 ≤ c) →
      (List.foldl (fun (acc : ℚ × String) p =>
        let s := sim p.1 p.2
        if acc.1 < s then (s, p.2) else acc) init l).1 ≤ c := by
  induction l with
  | nil => intro init h0 _; simpa using h0
  | cons x xs ih =>
    intro init h0 h
    rw [List.foldl_cons]
    refine ih _ ?_ (fun y hy => h y (by simp [hy]))
    dsimp only
    split
    · exact h x (by simp)
    · exact h0

theorem pair_mem_pairs (ag sp : String) (A B : List String)
    (hag : ag ∈ A) (hsp : sp ∈ B) :
    (ag, sp) ∈ (A.map (fun a => B.map (fun b => (a, b)))).flatten := by
  simp only [List.mem_flatten, List.mem_map]
  exact ⟨B.map (fun b => (ag, b)), ⟨ag, hag, rfl⟩, by
    simp only [List.mem_map]
    exact ⟨sp, hsp, rfl⟩⟩

theorem artistPairSimilarity_eq_one (flag : Bool) (x y : String)
    (h1 : x ≠ "") (h2 : y ≠ "")
    (h : clean_search_text (pyLower x) = clean_search_text (pyLower y)) :
    artistPairSimilarity flag x y = 1 := by
  have hs := similarity_score_eq_one x y h1 h2 h
  unfold artistPairSimilarity
  split
  · rw [hs]
    exact max_eq_right (phonetic_similarity_le_one _ _)
  · exact hs

theorem bestArtistMatch_le_one (flag : Bool) (A B : List String) :
    (bestArtistMatch (artistPairSimilarity flag) A B).1 ≤ 1 := by
  unfold bestArtistMatch
  exact bestFold_fst_le _ _ 1 _ (by norm_num)
    (fun p _ => artistPairSimilarity_le_one flag p.1 p.2)

theorem bestArtistMatch_eq_one (flag : Bool) (A B : List String)
    (ag sp : String) (hag : ag ∈ A) (hsp : sp ∈ B)
    (h1 : ag ≠ "") (h2 : sp ≠ "")
    (h : clean_search_text (pyLower ag) = clean_search_text (pyLower sp)) :
    (bestArtistMatch (artistPairSimilarity flag) A B).1 = 1 := by
  refine le_antisymm (bestArtistMatch_le_one flag A B) ?_
  unfold bestArtistMatch
  have := bestFold_le_of_mem (artistPairSimilarity flag) _ (ag, sp)
    (pair_mem_pairs ag sp A B hag hsp) (0, "")
  rwa [artistPairSimilarity_eq_one flag ag sp h1 h2 h] at this

/-- C9: a candidate whose title is identical to the source title after
normalization and whose artist list contains an artist identical (after
normalization) to one of the source artists scores exactly `1.0`, for
script-variant and plain tracks alike — the weighted sum plus bonuses is
clamped at `1.0` (and reaches exactly `1.0` without the clamp in the
non-script case). -/
theorem C9_exact_match_scores_one (track : AnghamiTrack) (sp_title : String)
    (sp_artists : List String) (album : String)
    (ht1 : track.title ≠ "") (ht2 : sp_title ≠ "")
    (htitle : clean_search_text (pyLower track.title) =
      clean_search_text (pyLower sp_title))
    (ag sp : String) (hag : ag ∈ track.artists) (hsp : sp ∈ sp_artists)
    (ha1 : ag ≠ "") (ha2 : sp ≠ "")
    (hartist : clean_search_text (pyLower ag) = clean_search_text (pyLower sp)) :
    (calculate_confidence track sp_title sp_artists album).1 = 1 := by
  have hts : similarity_score track.title sp_title = 1 :=
    similarity_score_eq_one _ _ ht1 ht2 htitle
  by_cases harab :
      (is_arabic_text track.title || track.artists.any is_arabic_text) = true
  · have hbest := bestArtistMatch_eq_one true track.artists sp_artists ag sp
      hag hsp ha1 ha2 hartist
    simp only [calculate_confidence, harab, if_true]
    rw [hts, max_eq_left (translitTitleSimilarity_le_one track.title sp_title),
      hbest]
    norm_num
    repeat' split
    all_goals norm_num [List.foldl_cons, List.foldl_nil]
  · rw [Bool.not_eq_true] at harab
    have hbest := bestArtistMatch_eq_one false track.artists sp_artists ag sp
      hag hsp ha1 ha2 hartist
    simp only [calculate_confidence, harab]
    rw [hts, hbest]
    norm_num

/-- Witness for `C9_exact_match_scores_one`: an exact catalog copy of
`Pink + White` by `Frank Ocean` scores exactly 1. -/
theorem C9_witness :
    (AnghamiTrack.mk "Pink + White" ["Frank Ocean"]).title ≠ "" ∧
    (calculate_confidence (AnghamiTrack.mk "Pink + White" ["Frank Ocean"])
        "Pink + White" ["Frank Ocean"] "Blonde").1 = 1 :=
  ⟨by decide,
    C9_exact_match_scores_one (AnghamiTrack.mk "Pink + White" ["Frank Ocean"])
      "Pink + White" ["Frank Ocean"] "Blonde" (by decide) (by decide) rfl
      "Frank Ocean" "Frank Ocean" (by decide) (by decide) (by decide) (by decide)
      rfl⟩

attribute [local semireducible] Rat.add Rat.mul Rat.inv Rat.sub Rat.ofScientific

set_option maxRecDepth 100000 in
/-- C5 (code bug): the spec awards `+0.1` to every candidate that came from a
discography search, but `_calculate_confidence` tests
`any("discography" in reason for reason in reasons)` against its own local
`reasons` list, which never contains the word "discography" (the
`strategy` label `discography_<artist>` is never consulted).  A candidate
produced under a discography strategy with exact title and artist similarity
`0` therefore scores `0.4·1 + 0.5·0 + 0.05 = 0.45` instead of the specified
`0.55`, and none of its recorded reasons mention the discography search. -/
theorem C5_discography_bonus_never_applied :
    (score_matches (AnghamiTrack.mk "موسى" ["موسى"])
        [SpotifyRawTrack.mk "t1" "موسى" ["Zzz"] "Album" 200000 none []]
        "discography_Moussa").map SpotifyTrackMatch.confidence_score = [9/20] ∧
    (score_matches (AnghamiTrack.mk "موسى" ["موسى"])
        [SpotifyRawTrack.mk "t1" "موسى" ["Zzz"] "Album" 200000 none []]
        "discography_Moussa").map SpotifyTrackMatch.match_strategy =
      ["discography_Moussa"] ∧
    (score_matches (AnghamiTrack.mk "موسى" ["موسى"])
        [SpotifyRawTrack.mk "t1" "موسى" ["Zzz"] "Album" 200000 none []]
        "discography_Moussa").map SpotifyTrackMatch.match_reasons =
      [["Excellent title match", "Exact title match"]] := by
  decide

/-! ### C3: candidate ordering and best match -/

theorem match_general_go_best_unchanged (api : SpotifyApi) (now : ℚ)
    (track : AnghamiTrack) :
    ∀ (strats : List (String × String)) (result : MatchResult) (st : MatcherState),
      (match_general_go api now track strats result st).1.best_match =
        result.best_match := by
  intro strats
  induction strats with
  | nil => intro result st; rfl
  | cons s rest ih =>
    intro result st
    obtain ⟨name, query⟩ := s
    rw [match_general_go]
    dsimp only
    split
    · split
    <;> first
      | (split
         · rfl
         · rw [ih])
      | rw [ih]
    · rw [ih]

theorem match_arabic_go_best_unchanged (api : SpotifyApi) (track : AnghamiTrack) :
    ∀ (arts : List (String × ℚ)) (result : MatchResult),
      (match_arabic_go api track arts result).1.best_match =
        result.best_match := by
  intro arts
  induction arts with
  | nil => intro result; rfl
  | cons s rest ih =>
    intro result
    obtain ⟨name, conf⟩ := s
    rw [match_arabic_go]
    dsimp only
    split
    · split
    <;> first
      | (split
         · rfl
         · rw [ih])
      | rw [ih]
    · rw [ih]

theorem match_arabic_track_best_unchanged (api : SpotifyApi)
    (track : AnghamiTrack) (result : MatchResult) :
    (match_arabic_track api track result).1.best_match = result.best_match := by
  unfold match_arabic_track
  dsimp only
  split
  · rw [match_arabic_go_best_unchanged]
  · rfl

theorem finalize_gives_pyMax (result : MatchResult) (stats : MatcherStats)
    (h : result.best_match = none) :
    (finalize_match_result result stats).1.best_match =
      pyMaxByConf (finalize_match_result result stats).1.spotify_matches := by
  unfold finalize_match_result
  dsimp only
  split
  next best heq =>
    split
    · dsimp only
      rw [heq]
    · dsimp only
      rw [heq]
  next heq =>
    dsimp only
    rw [h, heq]

/-- C3 counterexample: the claim asserts that the candidates list of every
`MatchResult` is sorted in descending confidence order, but when an early
strategy contributes a low-confidence batch and a later strategy a
high-confidence one, the concatenated list is increasing. -/
theorem C3_counterexample :
    ((match_track orderingApi MatcherState.init orderingTrack 0).1.spotify_matches.map
      SpotifyTrackMatch.confidence_score = [0, 1]) ∧
    ¬ List.Sorted byConfDesc
        (match_track orderingApi MatcherState.init orderingTrack 0).1.spotify_matches := by
  constructor
  · decide
  · decide

/-- C3 (amended): each strategy's scored batch is sorted in descending
confidence order before being appended — so the candidates list is a
concatenation of descending runs, not necessarily globally sorted — and
`bestMatch` always equals the maximal-confidence candidate (the first among
equals, `none` when the list is empty). -/
theorem C3_batch_sorted_and_best_is_max :
    (∀ (track : AnghamiTrack) (tracks : List SpotifyRawTrack) (strategy : String),
      List.Sorted byConfDesc (score_matches track tracks strategy)) ∧
    (∀ (api : SpotifyApi) (st : MatcherState) (track : AnghamiTrack) (now : ℚ),
      (match_track api st track now).1.best_match =
        pyMaxByConf (match_track api st track now).1.spotify_matches) := by
  constructor
  · intro track tracks strategy
    unfold score_matches
    exact List.sorted_insertionSort byConfDesc _
  · intro api st track now
    unfold match_track
    dsimp only
    split
    · split
      · exact finalize_gives_pyMax _ _ (match_arabic_track_best_unchanged _ _ _)
      · refine finalize_gives_pyMax _ _ ?_
        unfold match_general_track
        rw [match_general_go_best_unchanged,
          match_arabic_track_best_unchanged]
    · refine finalize_gives_pyMax _ _ ?_
      unfold match_general_track
      rw [match_general_go_best_unchanged]

/-! ### C4: cache idempotence -/

/-- C4 counterexample: when a search returns an empty result list, the cached
empty payload is falsy (`if cached_result:`), so a second identical query
within the TTL issues a second outbound API call — the claim's "exactly one
outbound search call" fails. -/
theorem C4_counterexample :
    (search_spotify emptyApi MatcherState.init "Song" "s" 0).2.stats.api_calls = 1 ∧
    (search_spotify emptyApi
        (search_spotify emptyApi MatcherState.init "Song" "s" 0).2
        "Song" "s" 1).2.stats.api_calls = 2 := by
  constructor
  · decide
  · decide

/-- C4 (amended): once a search for `q` has been issued (a cache miss on a
non-blank query) and returned a non-empty result, any later non-blank search
whose query is identical up to letter case and surrounding whitespace,
issued within the TTL window of the insertion, returns the cached result and
makes no outbound API call; a later identical search after a search that
returned an *empty* list re-issues the call (see the counterexample). -/
theorem C4_cache_hit_single_call (api : SpotifyApi) (st : MatcherState)
    (q1 q2 s1 s2 : String) (t0 t1 : ℚ)
    (hkey : cacheKey q1 "track" = cacheKey q2 "track")
    (hq2 : pyStrip q2 ≠ "")
    (hmiss : st.cache.cache.lookup (cacheKey q1 "track") = none)
    (hne : (search_spotify api st q1 s1 t0).1 ≠ [])
    (httl : t1 - t0 < st.cache.cache_duration) :
    (search_spotify api (search_spotify api st q1 s1 t0).2 q2 s2 t1).1 =
      (search_spotify api st q1 s1 t0).1 ∧
    (search_spotify api (search_spotify api st q1 s1 t0).2 q2 s2 t1).2.stats.api_calls =
      (search_spotify api st q1 s1 t0).2.stats.api_calls ∧
    (search_spotify api st q1 s1 t0).2.stats.api_calls = st.stats.api_calls + 1 := by
  by_cases hq1 : pyStrip q1 = ""
  · exfalso
    apply hne
    unfold search_spotify
    rw [if_pos hq1]
  · have hfirst : search_spotify api st q1 s1 t0 =
        (api.searchTracks q1,
          { st with
            cache := st.cache.set q1 (api.searchTracks q1) "track" t0
            stats := { st.stats with api_calls := st.stats.api_calls + 1 }
            last_request_time := t0 }) := by
      unfold search_spotify
      rw [if_neg hq1]
      unfold SpotifySearchCache.get
      rw [hmiss]
      rfl
    have hneapi : api.searchTracks q1 ≠ [] := by
      intro h0
      apply hne
      rw [hfirst, h0]
    rw [hfirst]
    unfold search_spotify
    rw [if_neg hq2]
    unfold SpotifySearchCache.get SpotifySearchCache.set
    dsimp only
    rw [← hkey]
    have hl : List.lookup (cacheKey q1 "track")
        ((cacheKey q1 "track", (⟨api.searchTracks q1, t0⟩ : CacheEntry)) ::
          st.cache.cache.filter (fun p => p.1 != cacheKey q1 "track")) =
        some ⟨api.searchTracks q1, t0⟩ := by
      rw [List.lookup_cons]
      simp
    rw [hl]
    dsimp only
    rw [if_pos httl]
    dsimp only
    rw [if_pos hneapi]
    exact ⟨rfl, rfl, rfl⟩

/-- Witness for `C4_cache_hit_single_call`: `"Song A"` then `" song a "`
one hour later hit the cache and issue exactly one outbound call. -/
theorem C4_witness :
    cacheKey "Song A" "track" = cacheKey " song a " "track" ∧
    ((search_spotify oneTrackApi
        (search_spotify oneTrackApi MatcherState.init "Song A" "s1" 0).2
        " song a " "s2" 3600).1 =
      (search_spotify oneTrackApi MatcherState.init "Song A" "s1" 0).1 ∧
    (search_spotify oneTrackApi
        (search_spotify oneTrackApi MatcherState.init "Song A" "s1" 0).2
        " song a " "s2" 3600).2.stats.api_calls =
      (search_spotify oneTrackApi MatcherState.init "Song A" "s1" 0).2.stats.api_calls ∧
    (search_spotify oneTrackApi MatcherState.init "Song A" "s1" 0).2.stats.api_calls =
      MatcherState.init.stats.api_calls + 1) :=
  ⟨by decide,
    C4_cache_hit_single_call oneTrackApi MatcherState.init "Song A" " song a "
      "s1" "s2" 0 3600 (by decide) (by decide) (by decide) (by decide)
      (by decide)⟩

/-! ### C2: partition of match results -/

/-- C2 counterexample: a review-flagged result with no candidates at all is
skipped before the review check — it is recorded in neither the
pending-review list nor the URI list, while the claim requires it in the
pending-review list. -/
theorem C2_counterexample :
    noMatchResult.requires_user_review = true ∧
    noMatchResult.has_match = false ∧
    process_match_results [noMatchResult] false = ([], []) := by
  refine ⟨rfl, by decide, by decide⟩

theorem processStep_nomatch (skip : Bool) (acc : List String × List ReviewTrackEntry)
    (r : MatchResult) (hm : r.has_match = false) : processStep skip acc r = acc := by
  simp [processStep, hm]

theorem processStep_review (skip : Bool) (acc : List String × List ReviewTrackEntry)
    (r : MatchResult) (hm : r.has_match = true)
    (hr : (r.requires_user_review && !skip) = true) :
    processStep skip acc r = (acc.1, acc.2 ++ [reviewEntryOf r]) := by
  simp [processStep, hm, hr]

theorem processStep_add (skip : Bool) (acc : List String × List ReviewTrackEntry)
    (r : MatchResult) (m : SpotifyTrackMatch) (hm : r.has_match = true)
    (hr : (r.requires_user_review && !skip) = false) (hb : r.best_match = some m) :
    processStep skip acc r = (acc.1 ++ ["spotify:track:" ++ m.spotify_id], acc.2) := by
  simp [processStep, hm, hr, hb]

theorem processStep_nobest (skip : Bool) (acc : List String × List ReviewTrackEntry)
    (r : MatchResult) (hm : r.has_match = true)
    (hr : (r.requires_user_review && !skip) = false) (hb : r.best_match = none) :
    processStep skip acc r = acc := by
  simp [processStep, hm, hr, hb]

theorem process_go (skip : Bool) :
    ∀ (l : List MatchResult) (u : List String) (v : List ReviewTrackEntry),
      l.foldl (processStep skip) (u, v) =
      (u ++ (l.filter (fun r =>
          r.has_match && !(r.requires_user_review && !skip))).filterMap
          (fun r => r.best_match.map (fun m => "spotify:track:" ++ m.spotify_id)),
        v ++ (l.filter (fun r =>
          r.has_match && (r.requires_user_review && !skip))).map reviewEntryOf) := by
  intro l
  induction l with
  | nil => intro u v; simp
  | cons r rest ih =>
    intro u v
    rw [List.foldl_cons]
    cases hm : r.has_match with
    | false =>
      rw [processStep_nomatch _ _ _ hm, ih]
      simp only [List.filter_cons, hm, Bool.false_and]
      simp
    | true =>
      cases hrr : (r.requires_user_review && !skip) with
      | true =>
        rw [processStep_review _ _ _ hm hrr, ih]
        simp only [List.filter_cons, hm, hrr, Bool.true_and, Bool.not_true]
        simp
      | false =>
        cases hb : r.best_match with
        | some m =>
          rw [processStep_add _ _ _ _ hm hrr hb, ih]
          simp only [List.filter_cons, hm, hrr, Bool.true_and, Bool.not_false]
          simp [hb]
        | none =>
          rw [processStep_nobest _ _ _ hm hrr hb, ih]
          simp only [List.filter_cons, hm, hrr, Bool.true_and, Bool.not_false]
          simp [hb]

/-- C2 (amended): results with no candidates at all are skipped entirely
(recorded in neither list); every result with at least one candidate and
`requiresReview ∧ ¬skipReview` is recorded exactly once in the
pending-review list (with source track, best candidate if any, confidence,
script flag and reason) and adds no URI; every result with a candidate and
`(¬requiresReview ∨ skipReview)` contributes exactly one track URI when its
`bestMatch` is non-null. -/
theorem C2_partition (results : List MatchResult) (skip : Bool) :
    (process_match_results results skip).2 =
      (results.filter (fun r =>
        r.has_match && (r.requires_user_review && !skip))).map reviewEntryOf ∧
    (process_match_results results skip).1 =
      (results.filter (fun r =>
        r.has_match && !(r.requires_user_review && !skip))).filterMap
        (fun r => r.best_match.map (fun m => "spotify:track:" ++ m.spotify_id)) := by
  unfold process_match_results
  rw [process_go]
  simp

/-! ### C6/C7: batch upload -/

theorem add_tracks_go_spec (upload : ℕ → Option String) :
    ∀ (fuel : ℕ) (l : List String) (k : ℕ), l.length < fuel →
      add_tracks_go upload fuel l k =
        (((((chunkFuel fuel l).enumFrom k).filter
            (fun p => (upload p.1).isNone)).map (fun p => p.2.length)).sum,
          ((chunkFuel fuel l).enumFrom k).flatMap (fun p =>
            match upload p.1 with
            | some e => p.2.map (fun uri => (⟨uri, e, p.1⟩ : FailedTrackEntry))
            | none => []),
          chunkFuel fuel l) := by
  intro fuel
  induction fuel with
  | zero => intro l k h; exact absurd h (Nat.not_lt_zero _)
  | succ fuel ih =>
    intro l k h
    cases l with
    | nil => simp [add_tracks_go, chunkFuel]
    | cons c rest =>
      rw [add_tracks_go, chunkFuel]
      have hlen : ((c :: rest).drop 100).length < fuel := by
        rw [List.length_drop]
        simp only [List.length_cons] at h ⊢
        omega
      rw [ih _ (k + 1) hlen]
      cases hu : upload k with
      | none => simp [hu]
      | some e => simp [hu]

theorem chunkFuel_flatten :
    ∀ (fuel : ℕ) (l : List String), l.length < fuel →
      (chunkFuel fuel l).flatten = l := by
  intro fuel
  induction fuel with
  | zero => intro l h; exact absurd h (Nat.not_lt_zero _)
  | succ fuel ih =>
    intro l h
    cases l with
    | nil => simp [chunkFuel]
    | cons c rest =>
      rw [chunkFuel]
      have hlen : ((c :: rest).drop 100).length < fuel := by
        rw [List.length_drop]
        simp only [List.length_cons] at h ⊢
        omega
      rw [List.flatten_cons, ih _ hlen, List.take_append_drop]

theorem chunkFuel_count :
    ∀ (fuel : ℕ) (l : List String), l.length < fuel →
      (chunkFuel fuel l).length = (l.length + 99) / 100 := by
  intro fuel
  induction fuel with
  | zero => intro l h; exact absurd h (Nat.not_lt_zero _)
  | succ fuel ih =>
    intro l h
    cases l with
    | nil => simp [chunkFuel]
    | cons c rest =>
      rw [chunkFuel]
      have hlen : ((c :: rest).drop 100).length < fuel := by
        rw [List.length_drop]
        simp only [List.length_cons] at h ⊢
        omega
      rw [List.length_cons, ih _ hlen]
      rw [List.length_drop]
      simp only [List.length_cons]
      omega

theorem chunkFuel_le100 :
    ∀ (fuel : ℕ) (l : List String), ∀ b ∈ chunkFuel fuel l, b.length ≤ 100 := by
  intro fuel
  induction fuel with
  | zero => intro l b hb; simp [chunkFuel] at hb
  | succ fuel ih =>
    intro l b hb
    cases l with
    | nil => simp [chunkFuel] at hb
    | cons c rest =>
      rw [chunkFuel] at hb
      rcases List.mem_cons.mp hb with heq | hmem
      · subst heq
        simp
      · exact ih _ _ hmem

/-- C6: for every URI list, the batch-add loop issues exactly
`⌈N/100⌉` upload calls, each payload has at most 100 URIs, and the payloads
concatenate back to the original list in order (so every URI is sent in
exactly one batch). -/
theorem C6_batch_invariant (uris : List String) (upload : ℕ → Option String) :
    (add_tracks_to_playlist upload uris).2.2.length = (uris.length + 99) / 100 ∧
    (∀ b ∈ (add_tracks_to_playlist upload uris).2.2, b.length ≤ 100) ∧
    (add_tracks_to_playlist upload uris).2.2.flatten = uris := by
  unfold add_tracks_to_playlist
  split
  next h =>
    subst h
    refine ⟨rfl, by simp, rfl⟩
  next h =>
    rw [add_tracks_go_spec upload _ _ 1 (by omega)]
    exact ⟨chunkFuel_count _ _ (by omega), chunkFuel_le100 _ _,
      chunkFuel_flatten _ _ (by omega)⟩

/-- Witness for C6 on a concrete two-URI upload. -/
theorem C6_batch_invariant_witness :
    (add_tracks_to_playlist (fun _ => none) ["u1", "u2"]).2.2.length =
      ((["u1", "u2"] : List String).length + 99) / 100 ∧
    (∀ b ∈ (add_tracks_to_playlist (fun _ => none) ["u1", "u2"]).2.2,
      b.length ≤ 100) ∧
    (add_tracks_to_playlist (fun _ => none) ["u1", "u2"]).2.2.flatten =
      ["u1", "u2"] :=
  C6_batch_invariant ["u1", "u2"] (fun _ => none)

/-- C7: every batch is attempted whatever the upload outcomes are (the
attempted payloads are exactly the chunks of the input, independently of
`upload`); the added counter sums exactly the successful batches' sizes; and
a failed batch contributes every one of its URIs to `failed_tracks`, tagged
with that batch's (1-based) index and the error text. -/
theorem C7_failed_batch_isolation (uris : List String) (upload : ℕ → Option String) :
    (add_tracks_to_playlist upload uris).2.2 = chunk100 uris ∧
    (add_tracks_to_playlist upload uris).1 =
      ((((chunk100 uris).enumFrom 1).filter
        (fun p => (upload p.1).isNone)).map (fun p => p.2.length)).sum ∧
    (add_tracks_to_playlist upload uris).2.1 =
      ((chunk100 uris).enumFrom 1).flatMap (fun p =>
        match upload p.1 with
        | some e => p.2.map (fun uri => (⟨uri, e, p.1⟩ : FailedTrackEntry))
        | none => []) := by
  unfold add_tracks_to_playlist chunk100
  split
  next h =>
    subst h
    refine ⟨by simp [chunkFuel], by simp [chunkFuel], by simp [chunkFuel]⟩
  next h =>
    rw [add_tracks_go_spec upload _ _ 1 (by omega)]
    exact ⟨rfl, rfl, rfl⟩

/-- C10: `stop_migration` on a registered session returns `true` and rewrites
only the `status` and `message` fields of that session's status (every other
field, and every other session, is untouched); on an unknown session it
returns `false` and leaves the registry identical. -/
theorem C10_stop_migration_frame (sessions : String → Option MigrationStatus)
    (sid : String) :
    (∀ st, sessions sid = some st →
      (stop_migration sessions sid).1 = true ∧
      (stop_migration sessions sid).2 sid =
        some { st with
          status := "stopped"
          message := some "Migration stopped by user" } ∧
      ∀ k, k ≠ sid → (stop_migration sessions sid).2 k = sessions k) ∧
    (sessions sid = none →
      (stop_migration sessions sid).1 = false ∧
      (stop_migration sessions sid).2 = sessions) := by
  constructor
  · intro st hst
    unfold stop_migration
    rw [hst]
    refine ⟨rfl, ?_, ?_⟩
    · simp [stopStatus]
    · intro k hk
      simp [if_neg hk]
  · intro hst
    unfold stop_migration
    rw [hst]
    exact ⟨rfl, rfl⟩

/-- Witness for C10 on a concrete one-session registry. -/
theorem C10_stop_migration_frame_witness :
    exampleRegistry "s1" = some exampleStatus ∧
    ((stop_migration exampleRegistry "s1").1 = true ∧
      (stop_migration exampleRegistry "s1").2 "s1" =
        some { exampleStatus with
          status := "stopped"
          message := some "Migration stopped by user" } ∧
      ∀ k, k ≠ "s1" → (stop_migration exampleRegistry "s1").2 k = exampleRegistry k) ∧
    exampleRegistry "zz" = none ∧
    ((stop_migration exampleRegistry "zz").1 = false ∧
      (stop_migration exampleRegistry "zz").2 = exampleRegistry) :=
  ⟨rfl,
    (C10_stop_migration_frame exampleRegistry "s1").1 exampleStatus rfl,
    rfl,
    (C10_stop_migration_frame exampleRegistry "zz").2 rfl⟩

set_option maxRecDepth 100000 in
/-- C1: stopping a running simulated migration is not terminal.  With one
requested playlist, stop after the second matching tick: the session is
"matching", the stop marks it "stopped", yet the still-running coroutine
(which never consults the stop) later drives it through "creating"
(creating one playlist) and finishes with status "completed" — so creating
work IS performed after the stop and the final state is not "stopped". -/
theorem C1_stop_is_not_terminal :
    (runSegments ((segmentsOf (simEvents ["p1"])).take 3)
      (create_migration_status "s1" ["p1"] 0)).status = "matching" ∧
    (stopStatus (runSegments ((segmentsOf (simEvents ["p1"])).take 3)
      (create_migration_status "s1" ["p1"] 0))).status = "stopped" ∧
    (runSegments (((segmentsOf (simEvents ["p1"])).drop 3).take 9)
      (stopStatus (runSegments ((segmentsOf (simEvents ["p1"])).take 3)
        (create_migration_status "s1" ["p1"] 0)))).status = "creating" ∧
    (runSegments (((segmentsOf (simEvents ["p1"])).drop 3).take 9)
      (stopStatus (runSegments ((segmentsOf (simEvents ["p1"])).take 3)
        (create_migration_status "s1" ["p1"] 0)))).createdPlaylists = 1 ∧
    (runSegments ((segmentsOf (simEvents ["p1"])).drop 3)
      (stopStatus (runSegments ((segmentsOf (simEvents ["p1"])).take 3)
        (create_migration_status "s1" ["p1"] 0)))).status = "completed" ∧
    (runSegments ((segmentsOf (simEvents ["p1"])).drop 3)
      (stopStatus (runSegments ((segmentsOf (simEvents ["p1"])).take 3)
        (create_migration_status "s1" ["p1"] 0)))).createdPlaylists = 1 := by
  decide

end AnghamiSpotify
